import Mathlib

/-!
Verification of the agent-registration reconciler of the guardicore-monkey
repository, together with two repository-layer handlers
(`FileAgentPluginRepository.get_plugin` and
`save_stolen_credentials_to_repository`).

The reconciler itself (`handle_agent_registration`) is exercised by the unit
tests shipped in the repository but its body is not among the given source
files, so it is modelled from the specification (sections 3, 4 and 6 of the
design document): hosts (`Machine`), agents, communication edges, the identity
store, the host identity resolver with its conflict detector, the
communication recorder and the orchestrator.  IP addresses are modelled as
natural numbers; hardware ids as `Option Nat` (absent = no hardware id).
-/

namespace Monkey

/-- A network interface: an `(ip address, prefix length)` pair. -/
structure NetworkInterface where
  ip : Nat
  prefix_length : Nat
deriving DecidableEq, Repr

/-- Modelled from the spec: the canonical order on interfaces, "ascending by
numeric address, then by prefix length" (section 3). -/
def interfaceLt (a b : NetworkInterface) : Prop :=
  a.ip < b.ip ∨ (a.ip = b.ip ∧ a.prefix_length < b.prefix_length)

instance (a b : NetworkInterface) : Decidable (interfaceLt a b) := by
  unfold interfaceLt
  infer_instance

theorem interfaceLt_irrefl (a : NetworkInterface) : ¬ interfaceLt a a := by
  simp [interfaceLt]

theorem interfaceLt_trans {a b c : NetworkInterface} :
    interfaceLt a b → interfaceLt b c → interfaceLt a c := by
  rcases a with ⟨ia, pa⟩
  rcases b with ⟨ib, pb⟩
  rcases c with ⟨ic, pc⟩
  rintro (h₁ | ⟨h₁, h₁'⟩) (h₂ | ⟨h₂, h₂'⟩) <;> simp_all [interfaceLt] <;> omega

theorem interfaceLt_asymm {a b : NetworkInterface} :
    interfaceLt a b → ¬ interfaceLt b a := by
  intro h₁ h₂
  exact interfaceLt_irrefl a (interfaceLt_trans h₁ h₂)

theorem interfaceLt_trichotomy (a b : NetworkInterface) :
    interfaceLt a b ∨ a = b ∨ interfaceLt b a := by
  rcases a with ⟨ia, pa⟩
  rcases b with ⟨ib, pb⟩
  rcases Nat.lt_trichotomy ia ib with h | h | h
  · exact Or.inl (Or.inl h)
  · rcases Nat.lt_trichotomy pa pb with h' | h' | h'
    · exact Or.inl (Or.inr ⟨h, h'⟩)
    · exact Or.inr (Or.inl (by simp [h, h']))
    · exact Or.inr (Or.inr (Or.inr ⟨h.symm, h'⟩))
  · exact Or.inr (Or.inr (Or.inl h))

theorem interfaceLt_ne {a b : NetworkInterface} (h : interfaceLt a b) : a ≠ b := by
  intro he
  subst he
  exact interfaceLt_irrefl a h

/-- Modelled from the spec: ordered duplicate-collapsing insertion used to put
interface sets into canonical form (section 3: duplicates with identical
ip+prefix collapse, output ordered ascending). -/
def insertIface (x : NetworkInterface) : List NetworkInterface → List NetworkInterface
  | [] => [x]
  | y :: ys =>
    if interfaceLt x y then x :: y :: ys
    else if x = y then y :: ys
    else y :: insertIface x ys

/-- Modelled from the spec: canonical form of an interface set — sorted
ascending by (ip, prefix length), exact duplicates collapsed. -/
def canonicalize (l : List NetworkInterface) : List NetworkInterface :=
  l.foldr insertIface []

theorem mem_insertIface {a x : NetworkInterface} :
    ∀ {l : List NetworkInterface}, a ∈ insertIface x l ↔ a = x ∨ a ∈ l := by
  intro l
  induction l with
  | nil => simp [insertIface]
  | cons y ys ih =>
    by_cases h₁ : interfaceLt x y
    · simp [insertIface, h₁]
    · by_cases h₂ : x = y
      · subst h₂
        simp [insertIface, h₁]
      · simp only [insertIface, if_neg h₁, if_neg h₂, List.mem_cons, ih]
        tauto

theorem pairwise_insertIface {x : NetworkInterface} :
    ∀ {l : List NetworkInterface}, l.Pairwise interfaceLt →
      (insertIface x l).Pairwise interfaceLt := by
  intro l
  induction l with
  | nil => simp [insertIface]
  | cons y ys ih =>
    intro hp
    rcases List.pairwise_cons.mp hp with ⟨hy, hys⟩
    simp only [insertIface]
    by_cases h₁ : interfaceLt x y
    · rw [if_pos h₁]
      refine List.pairwise_cons.mpr ⟨?_, hp⟩
      intro z hz
      rcases List.mem_cons.mp hz with rfl | hz'
      · exact h₁
      · exact interfaceLt_trans h₁ (hy z hz')
    · rw [if_neg h₁]
      by_cases h₂ : x = y
      · rw [if_pos h₂]
        exact hp
      · rw [if_neg h₂]
        have hyx : interfaceLt y x := by
          rcases interfaceLt_trichotomy x y with h | h | h
          · exact absurd h h₁
          · exact absurd h h₂
          · exact h
        refine List.pairwise_cons.mpr ⟨?_, ih hys⟩
        intro z hz
        rcases mem_insertIface.mp hz with rfl | hz'
        · exact hyx
        · exact hy z hz'

theorem mem_canonicalize {a : NetworkInterface} :
    ∀ {l : List NetworkInterface}, a ∈ canonicalize l ↔ a ∈ l := by
  intro l
  induction l with
  | nil => simp [canonicalize]
  | cons y ys ih =>
    simp only [canonicalize, List.foldr_cons] at *
    rw [mem_insertIface, ih, List.mem_cons]

theorem pairwise_canonicalize :
    ∀ (l : List NetworkInterface), (canonicalize l).Pairwise interfaceLt := by
  intro l
  induction l with
  | nil => simp [canonicalize]
  | cons y ys ih =>
    simpa only [canonicalize, List.foldr_cons] using pairwise_insertIface ih

theorem pairwise_eq_of_mem_iff :
    ∀ {l₁ l₂ : List NetworkInterface}, l₁.Pairwise interfaceLt →
      l₂.Pairwise interfaceLt → (∀ a, a ∈ l₁ ↔ a ∈ l₂) → l₁ = l₂ := by
  intro l₁
  induction l₁ with
  | nil =>
    intro l₂ _ _ hmem
    cases l₂ with
    | nil => rfl
    | cons b bs => exact absurd ((hmem b).mpr (by simp)) (by simp)
  | cons a as ih =>
    intro l₂ hp₁ hp₂ hmem
    cases l₂ with
    | nil => exact absurd ((hmem a).mp (by simp)) (by simp)
    | cons b bs =>
      rcases List.pairwise_cons.mp hp₁ with ⟨ha, has⟩
      rcases List.pairwise_cons.mp hp₂ with ⟨hb, hbs⟩
      have hab : a = b := by
        rcases List.mem_cons.mp ((hmem a).mp (by simp)) with h | h
        · exact h
        · rcases List.mem_cons.mp ((hmem b).mpr (by simp)) with h' | h'
          · exact h'.symm
          · exact absurd (interfaceLt_trans (hb a h) (ha b h')) (interfaceLt_irrefl b)
      subst hab
      have htails : ∀ z, z ∈ as ↔ z ∈ bs := by
        intro z
        constructor
        · intro hz
          rcases List.mem_cons.mp ((hmem z).mp (List.mem_cons_of_mem a hz)) with h | h
          · exact absurd (h ▸ ha z hz) (interfaceLt_irrefl z)
          · exact h
        · intro hz
          rcases List.mem_cons.mp ((hmem z).mpr (List.mem_cons_of_mem a hz)) with h | h
          · exact absurd (h ▸ hb z hz) (interfaceLt_irrefl z)
          · exact h
      rw [ih has hbs htails]

theorem canonicalize_eq_of_mem_iff {l₁ l₂ : List NetworkInterface}
    (h : ∀ a, a ∈ l₁ ↔ a ∈ l₂) : canonicalize l₁ = canonicalize l₂ :=
  pairwise_eq_of_mem_iff (pairwise_canonicalize l₁) (pairwise_canonicalize l₂)
    (fun a => by rw [mem_canonicalize, mem_canonicalize]; exact h a)

theorem canonicalize_eq_self_of_pairwise {l : List NetworkInterface}
    (h : l.Pairwise interfaceLt) : canonicalize l = l :=
  pairwise_eq_of_mem_iff (pairwise_canonicalize l) h (fun a => mem_canonicalize)

theorem canonicalize_idem (l : List NetworkInterface) :
    canonicalize (canonicalize l) = canonicalize l :=
  canonicalize_eq_self_of_pairwise (pairwise_canonicalize l)

theorem canonicalize_ne_nil {l : List NetworkInterface} (h : l ≠ []) :
    canonicalize l ≠ [] := by
  cases l with
  | nil => exact absurd rfl h
  | cons a as =>
    intro hc
    have : a ∈ canonicalize (a :: as) := mem_canonicalize.mpr (by simp)
    rw [hc] at this
    exact absurd this (by simp)

/-- Whether the IP address of interface `i` occurs among the interfaces in
`cand` (the prefix length is ignored). -/
def interfaceIpAmong (cand : List NetworkInterface) (i : NetworkInterface) : Bool :=
  cand.any (fun j => decide (j.ip = i.ip))

theorem interfaceIpAmong_eq_false {c : List NetworkInterface} {i : NetworkInterface} :
    interfaceIpAmong c i = false ↔ ∀ j ∈ c, j.ip ≠ i.ip := by
  simp [interfaceIpAmong]

theorem interfaceIpAmong_eq_true {c : List NetworkInterface} {i : NetworkInterface} :
    interfaceIpAmong c i = true ↔ ∃ j ∈ c, j.ip = i.ip := by
  simp [interfaceIpAmong]

/-- Modelled from the spec (section 4.1 merge step, section 3 canonical
order), with the deduplication rule pinned down by the repository's unit test
`test_machine_interfaces_updated`: the merged interface set keeps the stored
interfaces whose IP does not occur among the candidate interfaces, adds every
candidate interface, and is written in canonical ascending order.  (That test
shows a stored interface whose IP reappears in the registration with a
different prefix length is replaced by the registration's interface rather
than kept alongside it.) -/
def mergeInterfaces (stored cand : List NetworkInterface) : List NetworkInterface :=
  canonicalize ((stored.filter (fun i => ! interfaceIpAmong cand i)) ++ cand)

theorem mem_mergeInterfaces {a : NetworkInterface} {s c : List NetworkInterface} :
    a ∈ mergeInterfaces s c ↔ (a ∈ s ∧ ∀ j ∈ c, j.ip ≠ a.ip) ∨ a ∈ c := by
  rw [mergeInterfaces, mem_canonicalize, List.mem_append, List.mem_filter,
    Bool.not_eq_true', interfaceIpAmong_eq_false]

theorem pairwise_mergeInterfaces (s c : List NetworkInterface) :
    (mergeInterfaces s c).Pairwise interfaceLt :=
  pairwise_canonicalize _

theorem subset_mergeInterfaces {a : NetworkInterface} {s c : List NetworkInterface}
    (h : a ∈ c) : a ∈ mergeInterfaces s c :=
  mem_mergeInterfaces.mpr (Or.inr h)

theorem mem_of_mem_mergeInterfaces {a : NetworkInterface} {s c : List NetworkInterface}
    (h : a ∈ mergeInterfaces s c) : a ∈ s ∨ a ∈ c := by
  rcases mem_mergeInterfaces.mp h with ⟨h', _⟩ | h'
  · exact Or.inl h'
  · exact Or.inr h'

theorem mergeInterfaces_absorb (s c : List NetworkInterface) :
    mergeInterfaces (mergeInterfaces s c) c = mergeInterfaces s c := by
  apply pairwise_eq_of_mem_iff (pairwise_mergeInterfaces _ _) (pairwise_mergeInterfaces _ _)
  intro a
  rw [mem_mergeInterfaces, mem_mergeInterfaces]
  constructor
  · rintro (⟨(⟨hs, hnoc⟩ | hc), hnoc'⟩ | hc)
    · exact Or.inl ⟨hs, hnoc⟩
    · exact absurd (hnoc' a hc) (by simp)
    · exact Or.inr hc
  · rintro (⟨hs, hnoc⟩ | hc)
    · exact Or.inl ⟨Or.inl ⟨hs, hnoc⟩, hnoc⟩
    · exact Or.inr hc

theorem mergeInterfaces_self_of_pairwise {c : List NetworkInterface}
    (h : c.Pairwise interfaceLt) : mergeInterfaces c c = c := by
  have hf : c.filter (fun i => ! interfaceIpAmong c i) = [] := by
    rw [List.filter_eq_nil_iff]
    intro i hi
    rw [Bool.not_eq_true', Bool.not_eq_false]
    exact interfaceIpAmong_eq_true.mpr ⟨i, hi, rfl⟩
  rw [mergeInterfaces, hf, List.nil_append, canonicalize_eq_self_of_pairwise h]

/-- A machine (host) record as stored by the identity store.  Mirrors the
`Machine` model used by the repository's unit tests: an integer id, an
optional hardware id, the list of known network interfaces, and the flag
marking the island (controller) machine. -/
structure Machine where
  id : Nat
  hardware_id : Option Nat
  network_interfaces : List NetworkInterface
  island : Bool
deriving DecidableEq, Repr

/-- A socket address `ip:port` (the `cc_server` field of a registration). -/
structure SocketAddress where
  ip : Nat
  port : Nat
deriving DecidableEq, Repr

/-- An agent record, keyed by the (externally supplied) agent id.  Mirrors the
`Agent` model used by the repository's unit tests. -/
structure Agent where
  id : Nat
  machine_id : Nat
  start_time : Nat
  parent_id : Option Nat
  cc_server : SocketAddress
deriving DecidableEq, Repr

/-- The relationship kind of a communication edge.  The reconciler only ever
produces the controller-communication kind `cc`. -/
inductive CommunicationType where
  | cc
  | scanned
deriving DecidableEq, Repr

/-- A directed communication edge between two machines, as passed to
`upsert_communication(src_machine_id, dst_machine_id, communication_type)`. -/
structure CommunicationEdge where
  src_machine_id : Nat
  dst_machine_id : Nat
  communication_type : CommunicationType
deriving DecidableEq, Repr

/-- The registration announcement delivered to the orchestrator.  Mirrors
`AgentRegistrationData` as used by the repository's unit tests. -/
structure AgentRegistrationData where
  id : Nat
  machine_hardware_id : Option Nat
  start_time : Nat
  parent_id : Option Nat
  cc_server : SocketAddress
  network_interfaces : List NetworkInterface
deriving DecidableEq, Repr

/-- Modelled from the spec: the identity store state visible to the reconciler
(section 6) — machine, agent and communication-edge records plus the fresh-id
allocator's counter. -/
structure Store where
  machines : List Machine
  agents : List Agent
  communications : List CommunicationEdge
  next_machine_id : Nat
deriving DecidableEq, Repr

/-- One operation issued against the identity store; used to express which
lookups and upserts a processing step performs. -/
inductive StoreOp where
  | findByHardwareId (hid : Nat)
  | findByIp (ip : Nat)
  | newId (id : Nat)
  | upsertMachine (m : Machine)
  | upsertAgent (a : Agent)
  | upsertCommunication (e : CommunicationEdge)
deriving DecidableEq, Repr

/-- Whether a store operation is a write (one of the three upserts). -/
def StoreOp.isUpsert : StoreOp → Bool
  | .upsertMachine _ => true
  | .upsertAgent _ => true
  | .upsertCommunication _ => true
  | _ => false

/-- Whether a store operation is an IP-overlap lookup (the resolver's step-2
query, also used by the communication recorder). -/
def StoreOp.isIpLookup : StoreOp → Bool
  | .findByIp _ => true
  | _ => false

/-- Modelled from the spec: keyed insert-or-update — if a record with the same
key exists it is overwritten, otherwise the record is appended (glossary:
"Upsert: insert-or-update keyed write, idempotent when applied with identical
data"). -/
def upsertBy {α β : Type} [DecidableEq β] (key : α → β) (x : α) (l : List α) : List α :=
  if l.any (fun y => decide (key y = key x)) then
    l.map (fun y => if key y = key x then x else y)
  else l ++ [x]

theorem upsertBy_of_exists_key {α β : Type} [DecidableEq β] {key : α → β} {x : α}
    {l : List α} (h : ∃ y ∈ l, key y = key x) :
    upsertBy key x l = l.map (fun y => if key y = key x then x else y) := by
  rw [upsertBy, if_pos]
  rcases h with ⟨y, hy, hk⟩
  exact List.any_eq_true.mpr ⟨y, hy, by simp [hk]⟩

theorem upsertBy_of_forall_ne {α β : Type} [DecidableEq β] {key : α → β} {x : α}
    {l : List α} (h : ∀ y ∈ l, key y ≠ key x) : upsertBy key x l = l ++ [x] := by
  rw [upsertBy, if_neg]
  simp only [List.any_eq_true, decide_eq_true_eq, not_exists]
  intro y hy
  exact h y hy.1 hy.2

theorem mem_upsertBy_self {α β : Type} [DecidableEq β] (key : α → β) (x : α)
    (l : List α) : x ∈ upsertBy key x l := by
  by_cases h : ∃ y ∈ l, key y = key x
  · rw [upsertBy_of_exists_key h]
    rcases h with ⟨y, hy, hk⟩
    exact List.mem_map.mpr ⟨y, hy, by simp [hk]⟩
  · push_neg at h
    rw [upsertBy_of_forall_ne h]
    simp

theorem mem_upsertBy {α β : Type} [DecidableEq β] {key : α → β} {x z : α}
    {l : List α} (h : z ∈ upsertBy key x l) : z ∈ l ∨ z = x := by
  by_cases hex : ∃ y ∈ l, key y = key x
  · rw [upsertBy_of_exists_key hex] at h
    rcases List.mem_map.mp h with ⟨y, hy, hz⟩
    by_cases hk : key y = key x
    · right
      simpa [hk] using hz.symm
    · left
      rw [if_neg hk] at hz
      exact hz ▸ hy
  · push_neg at hex
    rw [upsertBy_of_forall_ne hex] at h
    rcases List.mem_append.mp h with h' | h'
    · exact Or.inl h'
    · exact Or.inr (by simpa using h')

theorem upsertBy_key_eq {α β : Type} [DecidableEq β] {key : α → β} {x z : α}
    {l : List α} (h : z ∈ upsertBy key x l) (hall : ∀ y ∈ l, key y = key x → y = x) :
    key z = key x → z = x := by
  intro hk
  rcases mem_upsertBy h with h' | h'
  · exact hall z h' hk
  · exact h'

theorem map_replace_id {α β : Type} [DecidableEq β] {key : α → β} {x : α}
    {l : List α} (h : ∀ y ∈ l, key y = key x → y = x) :
    l.map (fun y => if key y = key x then x else y) = l := by
  induction l with
  | nil => rfl
  | cons a as ih =>
    have ha : (if key a = key x then x else a) = a := by
      by_cases hk : key a = key x
      · rw [if_pos hk, h a (List.mem_cons_self a as) hk]
      · rw [if_neg hk]
    rw [List.map_cons, ha, ih (fun y hy hk => h y (List.mem_cons_of_mem a hy) hk)]

theorem upsertBy_append_stable {α β : Type} [DecidableEq β] {key : α → β} {x : α}
    {l t : List α} (ht : ∀ y ∈ t, key y ≠ key x) :
    upsertBy key x (upsertBy key x l ++ t) = upsertBy key x l ++ t := by
  have hxmem : x ∈ upsertBy key x l := mem_upsertBy_self key x l
  have hall : ∀ y ∈ upsertBy key x l ++ t, key y = key x → y = x := by
    intro y hy hk
    rcases List.mem_append.mp hy with h' | h'
    · by_cases hex : ∃ z ∈ l, key z = key x
      · rw [upsertBy_of_exists_key hex] at h'
        rcases List.mem_map.mp h' with ⟨z, _, hz⟩
        by_cases hkz : key z = key x
        · simpa [hkz] using hz.symm
        · rw [if_neg hkz] at hz
          exact absurd (hz ▸ hk) hkz
      · push_neg at hex
        rw [upsertBy_of_forall_ne hex] at h'
        rcases List.mem_append.mp h' with h'' | h''
        · exact absurd hk (hex y h'')
        · simpa using h''
    · exact absurd hk (ht y h')
  rw [upsertBy_of_exists_key ⟨x, List.mem_append_left _ hxmem, rfl⟩,
    map_replace_id hall]

theorem upsertBy_idem {α β : Type} [DecidableEq β] (key : α → β) (x : α)
    (l : List α) : upsertBy key x (upsertBy key x l) = upsertBy key x l := by
  have h : upsertBy key x (upsertBy key x l ++ []) = upsertBy key x l ++ [] :=
    upsertBy_append_stable (by intro y hy; simp at hy)
  simpa using h

theorem filter_upsertBy_of_pairwise {α β : Type} [DecidableEq β] {key : α → β}
    {x : α} {l : List α} (h : l.Pairwise (fun a b => key a ≠ key b)) :
    (upsertBy key x l).filter (fun z => decide (key z = key x)) = [x] := by
  by_cases hex : ∃ y ∈ l, key y = key x
  · rw [upsertBy_of_exists_key hex]
    rcases hex with ⟨y, hy, hk⟩
    rcases List.append_of_mem hy with ⟨l₁, l₂, rfl⟩
    have hp := h
    rw [List.pairwise_append] at hp
    rcases hp with ⟨hp₁, hp₂, hcross⟩
    rw [List.pairwise_cons] at hp₂
    rcases hp₂ with ⟨hy₂, _⟩
    have h₁ : ∀ z ∈ l₁, key z ≠ key x := by
      intro z hz
      have := hcross z hz y (by simp)
      rw [hk] at this
      exact this
    have h₂ : ∀ z ∈ l₂, key z ≠ key x := by
      intro z hz
      intro hzx
      exact hy₂ z hz (by rw [hk, hzx])
    rw [List.map_append, List.filter_append, List.map_cons, List.filter_cons]
    have e₁ : List.filter (fun z => decide (key z = key x))
        (l₁.map (fun y => if key y = key x then x else y)) = [] := by
      rw [List.filter_eq_nil_iff]
      intro z hz
      rcases List.mem_map.mp hz with ⟨w, hw, hwz⟩
      rw [if_neg (h₁ w hw)] at hwz
      subst hwz
      simp [h₁ w hw]
    have e₂ : List.filter (fun z => decide (key z = key x))
        (l₂.map (fun y => if key y = key x then x else y)) = [] := by
      rw [List.filter_eq_nil_iff]
      intro z hz
      rcases List.mem_map.mp hz with ⟨w, hw, hwz⟩
      rw [if_neg (h₂ w hw)] at hwz
      subst hwz
      simp [h₂ w hw]
    rw [if_pos hk]
    simp [e₁, e₂]
  · push_neg at hex
    rw [upsertBy_of_forall_ne hex, List.filter_append, List.filter_cons]
    have e₁ : List.filter (fun z => decide (key z = key x)) l = [] := by
      rw [List.filter_eq_nil_iff]
      intro z hz
      simp [hex z hz]
    simp [e₁]

/-- Modelled from the spec: `allocate fresh host id` — returns the allocator's
counter and advances it (section 6, "monotonically unique integer"). -/
def Store.get_new_id (s : Store) : Nat × Store :=
  (s.next_machine_id, { s with next_machine_id := s.next_machine_id + 1 })

/-- Modelled from the spec: `upsert host` — keyed by the machine id. -/
def Store.upsert_machine (s : Store) (m : Machine) : Store :=
  { s with machines := upsertBy Machine.id m s.machines }

/-- Modelled from the spec: `upsert agent` — keyed by the agent id. -/
def Store.upsert_agent (s : Store) (a : Agent) : Store :=
  { s with agents := upsertBy Agent.id a s.agents }

/-- Modelled from the spec: `upsert communication edge` — keyed by the whole
`(from id, to id, kind)` triple, so re-recording the same edge is idempotent
(section 3). -/
def Store.upsert_communication (s : Store) (e : CommunicationEdge) : Store :=
  { s with communications := upsertBy (fun x => x) e s.communications }

/-- Whether machine `m` has an interface with IP address `ip` (the prefix
length is ignored for the match). -/
def machineMatchesIp (ip : Nat) (m : Machine) : Bool :=
  m.network_interfaces.any (fun i => decide (i.ip = ip))

/-- Modelled from the spec: `find host by hardware id` (section 6).  The store
returns the first stored machine carrying that hardware id, or nothing. -/
def get_machine_by_hardware_id (hid : Nat) (machines : List Machine) : Option Machine :=
  machines.find? (fun m => decide (m.hardware_id = some hid))

/-- Modelled from the spec: `find hosts by IP` (section 6) — every stored
machine having an interface with the given IP, in storage order. -/
def get_machines_by_ip (ip : Nat) (machines : List Machine) : List Machine :=
  machines.filter (machineMatchesIp ip)

/-- Modelled from the spec: the resolver's step-2 iteration (section 4.1) —
walk the candidate interfaces in canonical order, query the store for machines
having an interface with the same IP, and stop at the first interface with a
match (the first returned machine is taken).  Also returns the IP lookups
issued. -/
def findFirstByIp (machines : List Machine) :
    List NetworkInterface → Option Machine × List StoreOp
  | [] => (none, [])
  | i :: rest =>
    match (get_machines_by_ip i.ip machines).head? with
    | some m => (some m, [StoreOp.findByIp i.ip])
    | none =>
      let p := findFirstByIp machines rest
      (p.1, StoreOp.findByIp i.ip :: p.2)

/-- The error raised by the conflict detector. -/
inductive RegistrationError where
  | hardwareIdentityConflict
deriving DecidableEq, Repr

instance exceptDecEq {ε α : Type} [DecidableEq ε] [DecidableEq α] :
    DecidableEq (Except ε α) := fun x y =>
  match x, y with
  | Except.error a, Except.error b =>
    if h : a = b then isTrue (by rw [h])
    else isFalse (fun hc => h (by injection hc))
  | Except.error _, Except.ok _ => isFalse (fun hc => Except.noConfusion hc)
  | Except.ok _, Except.error _ => isFalse (fun hc => Except.noConfusion hc)
  | Except.ok a, Except.ok b =>
    if h : a = b then isTrue (by rw [h])
    else isFalse (fun hc => h (by injection hc))

/-- Modelled from the spec: the conflict detector (section 4.2) — a conflict
exists exactly when the matched machine's hardware id is present and differs
from the incoming one, which is also present.  (Hardware ids are modelled as
`Option Nat`; a present value is the spec's "present and non-empty".) -/
def hardwareConflict : Option Nat → Option Nat → Bool
  | some a, some b => decide (a ≠ b)
  | _, _ => false

/-- Modelled from the spec: the hardware id written back on an IP-overlap
match — learned from the registration if previously absent, otherwise left
unchanged (section 4.1 step 2). -/
def learnHardwareId : Option Nat → Option Nat → Option Nat
  | some a, _ => some a
  | none, incoming => incoming

/-- Modelled from the spec: the machine written back when an existing machine
is updated — same id and island flag, possibly learned hardware id, merged
interface set. -/
def updatedMachine (m : Machine) (hw : Option Nat) (cand : List NetworkInterface) :
    Machine :=
  ⟨m.id, hw, mergeInterfaces m.network_interfaces cand, m.island⟩

/-- Modelled from the spec: the resolver's step-2 fallback (section 4.1) —
IP-overlap search over the candidate interfaces; on a match, run the conflict
detector and update the matched machine; on no match, create a new machine
with a fresh id carrying the candidate hardware id and interfaces. -/
def resolveByIp (s : Store) (hid : Option Nat) (cand : List NetworkInterface) :
    Except RegistrationError Nat × Store × List StoreOp :=
  match findFirstByIp s.machines cand with
  | (some m, ops) =>
    if hardwareConflict m.hardware_id hid then
      (Except.error RegistrationError.hardwareIdentityConflict, s, ops)
    else
      let m' := updatedMachine m (learnHardwareId m.hardware_id hid) cand
      (Except.ok m.id, s.upsert_machine m', ops ++ [StoreOp.upsertMachine m'])
  | (none, ops) =>
    let p := s.get_new_id
    let m : Machine := ⟨p.1, hid, cand, false⟩
    (Except.ok p.1, p.2.upsert_machine m,
      ops ++ [StoreOp.newId p.1, StoreOp.upsertMachine m])

/-- Modelled from the spec: the host identity resolver (section 4.1) — step 1
looks the machine up by hardware id and merges interfaces on a hit; otherwise
step 2 falls back to IP-overlap matching.  The candidate interface set is used
in canonical order throughout (section 3). -/
def resolve (s : Store) (hid : Option Nat) (interfaces : List NetworkInterface) :
    Except RegistrationError Nat × Store × List StoreOp :=
  let cand := canonicalize interfaces
  match hid with
  | some h =>
    match get_machine_by_hardware_id h s.machines with
    | some m =>
      let m' := updatedMachine m m.hardware_id cand
      (Except.ok m.id, s.upsert_machine m',
        [StoreOp.findByHardwareId h, StoreOp.upsertMachine m'])
    | none =>
      let r := resolveByIp s hid cand
      (r.1, r.2.1, StoreOp.findByHardwareId h :: r.2.2)
  | none => resolveByIp s hid cand

/-- Modelled from the spec: the communication graph recorder (section 4.3) —
resolve the controller-side machine by the reported address's IP only; if none
matches, create a machine with a fresh id and the single exact-host interface
`(address ip, /32)`; then upsert the controller-communication edge. -/
def recordCommunication (s : Store) (fromId : Nat) (serverIp : Nat) :
    Store × List StoreOp :=
  match (get_machines_by_ip serverIp s.machines).head? with
  | some k =>
    let e : CommunicationEdge := ⟨fromId, k.id, CommunicationType.cc⟩
    (s.upsert_communication e, [StoreOp.findByIp serverIp, StoreOp.upsertCommunication e])
  | none =>
    let p := s.get_new_id
    let c : Machine := ⟨p.1, none, [⟨serverIp, 32⟩], false⟩
    let e : CommunicationEdge := ⟨fromId, p.1, CommunicationType.cc⟩
    ((p.2.upsert_machine c).upsert_communication e,
      [StoreOp.findByIp serverIp, StoreOp.newId p.1, StoreOp.upsertMachine c,
        StoreOp.upsertCommunication e])

/-- Modelled from the spec: the registration orchestrator (section 4.4) —
resolve the agent's machine, upsert the agent record bound to the resolved
machine id, then record the controller-communication edge.  A resolver
failure aborts the remaining steps without writing anything. -/
def handle_agent_registration (s : Store) (r : AgentRegistrationData) :
    Except RegistrationError Unit × Store × List StoreOp :=
  match resolve s r.machine_hardware_id r.network_interfaces with
  | (Except.error e, s₁, ops) => (Except.error e, s₁, ops)
  | (Except.ok machineId, s₁, ops) =>
    let a : Agent := ⟨r.id, machineId, r.start_time, r.parent_id, r.cc_server⟩
    let s₂ := s₁.upsert_agent a
    let p := recordCommunication s₂ machineId r.cc_server.ip
    (Except.ok (), p.1, ops ++ StoreOp.upsertAgent a :: p.2)

/-- Modelled from the spec: the invariants of a well-formed identity store —
machine ids are unique and below the fresh-id counter (section 3: ids are
unique, assigned once by the store; section 6: fresh ids are monotonically
unique), at most one stored machine carries a given hardware id (section 3),
agent ids are unique (section 3), edge endpoints refer to allocated ids, and
the keyed edge collection holds no duplicates (glossary: keyed upsert). -/
structure StoreWF (s : Store) : Prop where
  machine_ids_lt : ∀ m ∈ s.machines, m.id < s.next_machine_id
  machine_ids_unique : s.machines.Pairwise (fun a b => a.id ≠ b.id)
  hardware_ids_unique : ∀ m₁ ∈ s.machines, ∀ m₂ ∈ s.machines,
    m₁.hardware_id.isSome = true → m₁.hardware_id = m₂.hardware_id → m₁ = m₂
  agent_ids_unique : s.agents.Pairwise (fun a b => a.id ≠ b.id)
  communication_ids_lt : ∀ e ∈ s.communications,
    e.src_machine_id < s.next_machine_id ∧ e.dst_machine_id < s.next_machine_id
  communications_nodup : s.communications.Nodup

/-!
Smoke tests mirroring the repository's unit tests
(`test_handle_agent_registration.py`), with IP addresses encoded as naturals:
`192.168.1.1 ↦ 101`, `192.168.1.2 ↦ 102`, `192.168.1.3 ↦ 103`,
`192.168.1.4 ↦ 104`, `192.168.1.5 ↦ 105`, `192.168.2.2 ↦ 202`;
the agent UUID is encoded as `77`, `SEED_ID` is `10`, `MACHINE` is
`⟨2, some 5, [202/24], false⟩` and `AGENT_REGISTRATION_DATA` is
`⟨77, some 5, 0, none, 101:5000, [102/24]⟩`.
-/

example :
    (handle_agent_registration ⟨[], [], [], 10⟩
      ⟨77, some 5, 0, none, ⟨101, 5000⟩, [⟨102, 24⟩]⟩).2.1.machines =
    [⟨10, some 5, [⟨102, 24⟩], false⟩, ⟨11, none, [⟨101, 32⟩], false⟩] := by
  decide

example :
    (handle_agent_registration ⟨[⟨2, some 5, [⟨202, 24⟩], false⟩], [], [], 10⟩
      ⟨77, some 5, 0, none, ⟨101, 5000⟩, [⟨102, 24⟩]⟩).2.1.machines =
    [⟨2, some 5, [⟨102, 24⟩, ⟨202, 24⟩], false⟩, ⟨10, none, [⟨101, 32⟩], false⟩] := by
  decide

example :
    (handle_agent_registration ⟨[⟨1, some 104, [⟨102, 24⟩], false⟩], [], [], 10⟩
      ⟨77, some 5, 0, none, ⟨101, 5000⟩, [⟨102, 24⟩]⟩).1 =
    Except.error RegistrationError.hardwareIdentityConflict := by
  decide

example :
    (handle_agent_registration ⟨[], [], [], 10⟩
      ⟨77, some 5, 0, none, ⟨101, 5000⟩, [⟨102, 24⟩]⟩).2.1.agents =
    [⟨77, 10, 0, none, ⟨101, 5000⟩⟩] := by
  decide

example :
    (handle_agent_registration
      ⟨[⟨2, some 5, [⟨202, 24⟩], false⟩, ⟨1, some 99, [⟨101, 24⟩], true⟩], [], [], 10⟩
      ⟨77, some 5, 0, none, ⟨101, 5000⟩, [⟨102, 24⟩]⟩).2.1.communications =
    [⟨2, 1, CommunicationType.cc⟩] := by
  decide

example :
    (handle_agent_registration ⟨[⟨2, some 5, [⟨202, 24⟩], false⟩], [], [], 10⟩
      ⟨77, some 5, 0, none, ⟨101, 5000⟩, [⟨102, 24⟩]⟩).2.1.communications =
    [⟨2, 10, CommunicationType.cc⟩] := by
  decide

example :
    (handle_agent_registration ⟨[⟨10, some 5, [⟨102, 32⟩, ⟨105, 32⟩], false⟩], [], [], 11⟩
      ⟨77, some 5, 0, none, ⟨101, 5000⟩, [⟨102, 24⟩, ⟨103, 16⟩, ⟨104, 24⟩]⟩).2.1.machines.head?.map
      Machine.network_interfaces =
    some [⟨102, 24⟩, ⟨103, 16⟩, ⟨104, 24⟩, ⟨105, 32⟩] := by
  decide

example :
    (handle_agent_registration
      ⟨[⟨1, none, [⟨105, 24⟩], false⟩], [], [], 10⟩
      ⟨77, some 5, 0, none, ⟨101, 5000⟩, [⟨102, 24⟩, ⟨104, 24⟩, ⟨105, 24⟩]⟩).2.1.machines.head? =
    some ⟨1, some 5, [⟨102, 24⟩, ⟨104, 24⟩, ⟨105, 24⟩], false⟩ := by
  decide

/-!
General lemmas about `find?` on replaced and extended record lists, used to
analyse what a second processing of the same event observes in the store.
-/

theorem find?_map_ite_of_found {α : Type} {p : α → Bool} {Q : α → Prop}
    [DecidablePred Q] {v m : α} (hv : p v = true) (hQ : Q m) :
    ∀ {l : List α}, l.find? p = some m →
      (l.map (fun x => if Q x then v else x)).find? p = some v := by
  intro l
  induction l with
  | nil => intro h; simp at h
  | cons a as ih =>
    intro h
    rw [List.map_cons]
    by_cases hQa : Q a
    · rw [if_pos hQa, List.find?_cons_of_pos _ hv]
    · rw [if_neg hQa]
      cases hpa : p a with
      | true =>
        rw [List.find?_cons_of_pos _ hpa] at h
        injection h with h'
        exact absurd (h' ▸ hQ) hQa
      | false =>
        rw [List.find?_cons_of_neg _ (by simp [hpa])] at h
        rw [List.find?_cons_of_neg _ (by simp [hpa])]
        exact ih h

theorem find?_map_ite_of_none {α : Type} {p : α → Bool} {Q : α → Prop}
    [DecidablePred Q] {v : α} (hv : p v = true) :
    ∀ {l : List α}, (∀ x ∈ l, p x = false) → (∃ x ∈ l, Q x) →
      (l.map (fun x => if Q x then v else x)).find? p = some v := by
  intro l
  induction l with
  | nil => rintro _ ⟨x, hx, _⟩; simp at hx
  | cons a as ih =>
    rintro hall ⟨x, hx, hQx⟩
    rw [List.map_cons]
    by_cases hQa : Q a
    · rw [if_pos hQa, List.find?_cons_of_pos _ hv]
    · rw [if_neg hQa, List.find?_cons_of_neg _ (by simp [hall a (List.mem_cons_self a as)])]
      refine ih (fun y hy => hall y (List.mem_cons_of_mem a hy)) ⟨x, ?_, hQx⟩
      rcases List.mem_cons.mp hx with rfl | hx'
      · exact absurd hQx hQa
      · exact hx'

theorem find?_append_of_some {α : Type} {p : α → Bool} {m : α} :
    ∀ {l : List α} (t : List α), l.find? p = some m → (l ++ t).find? p = some m := by
  intro l
  induction l with
  | nil => intro t h; simp at h
  | cons a as ih =>
    intro t h
    cases hpa : p a with
    | true =>
      rw [List.find?_cons_of_pos _ hpa] at h
      rw [List.cons_append, List.find?_cons_of_pos _ hpa]
      exact h
    | false =>
      rw [List.find?_cons_of_neg _ (by simp [hpa])] at h
      rw [List.cons_append, List.find?_cons_of_neg _ (by simp [hpa])]
      exact ih t h

theorem find?_append_right_of_none {α : Type} {p : α → Bool} {v : α}
    (hv : p v = true) :
    ∀ {l : List α}, (∀ x ∈ l, p x = false) → (l ++ [v]).find? p = some v := by
  intro l
  induction l with
  | nil => intro _; simp [List.find?_cons_of_pos _ hv]
  | cons a as ih =>
    intro hall
    rw [List.cons_append, List.find?_cons_of_neg _ (by simp [hall a (List.mem_cons_self a as)])]
    exact ih (fun y hy => hall y (List.mem_cons_of_mem a hy))

theorem head?_filter_eq_find? {α : Type} (p : α → Bool) :
    ∀ (l : List α), (l.filter p).head? = l.find? p := by
  intro l
  induction l with
  | nil => rfl
  | cons a as ih =>
    rw [List.filter_cons]
    cases hpa : p a with
    | true => rw [if_pos rfl, List.find?_cons_of_pos _ hpa, List.head?_cons]
    | false => rw [if_neg (by simp), List.find?_cons_of_neg _ (by simp [hpa])]; exact ih

/-!
Lemmas about the IP matching predicate, the store lookups, and the step-2
iteration.
-/

theorem machineMatchesIp_iff {ip : Nat} {m : Machine} :
    machineMatchesIp ip m = true ↔ ∃ j ∈ m.network_interfaces, j.ip = ip := by
  simp [machineMatchesIp]

theorem machineMatchesIp_of_mem {i : NetworkInterface} {m : Machine}
    (h : i ∈ m.network_interfaces) : machineMatchesIp i.ip m = true :=
  machineMatchesIp_iff.mpr ⟨i, h, rfl⟩

theorem get_machines_by_ip_head? (ip : Nat) (machines : List Machine) :
    (get_machines_by_ip ip machines).head? = machines.find? (machineMatchesIp ip) :=
  head?_filter_eq_find? _ machines

theorem findFirstByIp_cons (machines : List Machine) (i : NetworkInterface)
    (rest : List NetworkInterface) :
    (findFirstByIp machines (i :: rest)).1 =
      match machines.find? (machineMatchesIp i.ip) with
      | some m => some m
      | none => (findFirstByIp machines rest).1 := by
  rw [findFirstByIp, get_machines_by_ip_head?]
  cases machines.find? (machineMatchesIp i.ip) <;> rfl

theorem findFirstByIp_none_forall {machines : List Machine} :
    ∀ {cand : List NetworkInterface}, (findFirstByIp machines cand).1 = none →
      ∀ i ∈ cand, machines.find? (machineMatchesIp i.ip) = none := by
  intro cand
  induction cand with
  | nil => intro _ i hi; simp at hi
  | cons j rest ih =>
    intro h i hi
    rw [findFirstByIp_cons] at h
    rcases hfj : machines.find? (machineMatchesIp j.ip) with _ | m
    · rw [hfj] at h
      rcases List.mem_cons.mp hi with rfl | hi'
      · exact hfj
      · exact ih h i hi'
    · rw [hfj] at h
      simp at h

theorem findFirstByIp_some_mem {machines : List Machine} {m : Machine} :
    ∀ {cand : List NetworkInterface}, (findFirstByIp machines cand).1 = some m →
      m ∈ machines := by
  intro cand
  induction cand with
  | nil => intro h; simp [findFirstByIp] at h
  | cons j rest ih =>
    intro h
    rw [findFirstByIp_cons] at h
    rcases hfj : machines.find? (machineMatchesIp j.ip) with _ | m'
    · rw [hfj] at h
      exact ih h
    · rw [hfj] at h
      injection h with h'
      exact h' ▸ List.mem_of_find?_eq_some hfj

theorem findFirstByIp_cons_inv {machines : List Machine} {m : Machine}
    {i : NetworkInterface} {rest : List NetworkInterface}
    (h : (findFirstByIp machines (i :: rest)).1 = some m) :
    machines.find? (machineMatchesIp i.ip) = some m ∨
      (machines.find? (machineMatchesIp i.ip) = none ∧
        (findFirstByIp machines rest).1 = some m) := by
  rw [findFirstByIp_cons] at h
  rcases hfj : machines.find? (machineMatchesIp i.ip) with _ | m'
  · rw [hfj] at h
    have h' : (findFirstByIp machines rest).1 = some m := h
    exact Or.inr ⟨rfl, h'⟩
  · rw [hfj] at h
    have h' : some m' = some m := h
    exact Or.inl h'

/-!
Small facts about the conflict detector, hardware-id learning, and the store
write operations.
-/

theorem hardwareConflict_none_right (o : Option Nat) : hardwareConflict o none = false := by
  cases o <;> rfl

theorem learnHardwareId_none_right (o : Option Nat) : learnHardwareId o none = o := by
  cases o <;> rfl

theorem learnHardwareId_of_no_conflict {o : Option Nat} {h0 : Nat}
    (h : hardwareConflict o (some h0) = false) : learnHardwareId o (some h0) = some h0 := by
  cases o with
  | none => rfl
  | some a =>
    simp only [hardwareConflict, decide_eq_false_iff_not, not_not] at h
    rw [learnHardwareId, h]

theorem updatedMachine_stable (m : Machine) (hw : Option Nat)
    (cand : List NetworkInterface) :
    updatedMachine (updatedMachine m hw cand) hw cand = updatedMachine m hw cand := by
  simp [updatedMachine, mergeInterfaces_absorb]

theorem Store.upsert_machine_machines (s : Store) (m : Machine) :
    (s.upsert_machine m).machines = upsertBy Machine.id m s.machines := rfl

theorem Store.upsert_machine_agents (s : Store) (m : Machine) :
    (s.upsert_machine m).agents = s.agents := rfl

theorem Store.upsert_agent_machines (s : Store) (a : Agent) :
    (s.upsert_agent a).machines = s.machines := rfl

theorem Store.upsert_communication_machines (s : Store) (e : CommunicationEdge) :
    (s.upsert_communication e).machines = s.machines := rfl

theorem Store.upsert_machine_eq_self {s : Store} {m : Machine}
    (h : upsertBy Machine.id m s.machines = s.machines) : s.upsert_machine m = s := by
  cases s
  simp only [Store.upsert_machine] at *
  rw [h]

theorem Store.upsert_agent_eq_self {s : Store} {a : Agent}
    (h : upsertBy Agent.id a s.agents = s.agents) : s.upsert_agent a = s := by
  cases s
  simp only [Store.upsert_agent] at *
  rw [h]

theorem Store.upsert_communication_eq_self {s : Store} {e : CommunicationEdge}
    (h : upsertBy (fun x => x) e s.communications = s.communications) :
    s.upsert_communication e = s := by
  cases s
  simp only [Store.upsert_communication] at *
  rw [h]

/-!
Equation lemmas computing one step of the resolver, the recorder and the
orchestrator under a known lookup result.
-/

theorem resolve_none_eq (s : Store) (ifs : List NetworkInterface) :
    resolve s none ifs = resolveByIp s none (canonicalize ifs) := rfl

theorem resolve_hid_found {s : Store} {h0 : Nat} {m : Machine}
    (hfind : get_machine_by_hardware_id h0 s.machines = some m)
    (ifs : List NetworkInterface) :
    resolve s (some h0) ifs =
      (Except.ok m.id,
        s.upsert_machine (updatedMachine m m.hardware_id (canonicalize ifs)),
        [StoreOp.findByHardwareId h0,
          StoreOp.upsertMachine (updatedMachine m m.hardware_id (canonicalize ifs))]) := by
  simp only [resolve, hfind]

theorem resolve_hid_not_found {s : Store} {h0 : Nat}
    (hfind : get_machine_by_hardware_id h0 s.machines = none)
    (ifs : List NetworkInterface) :
    resolve s (some h0) ifs =
      ((resolveByIp s (some h0) (canonicalize ifs)).1,
        (resolveByIp s (some h0) (canonicalize ifs)).2.1,
        StoreOp.findByHardwareId h0 :: (resolveByIp s (some h0) (canonicalize ifs)).2.2) := by
  simp only [resolve, hfind]

theorem resolveByIp_match {s : Store} {hid : Option Nat} {cand : List NetworkInterface}
    {m : Machine} {ops0 : List StoreOp}
    (hf : findFirstByIp s.machines cand = (some m, ops0))
    (hnc : hardwareConflict m.hardware_id hid = false) :
    resolveByIp s hid cand =
      (Except.ok m.id,
        s.upsert_machine (updatedMachine m (learnHardwareId m.hardware_id hid) cand),
        ops0 ++ [StoreOp.upsertMachine
          (updatedMachine m (learnHardwareId m.hardware_id hid) cand)]) := by
  simp only [resolveByIp, hf, hnc]
  rfl

theorem resolveByIp_conflict {s : Store} {hid : Option Nat} {cand : List NetworkInterface}
    {m : Machine} {ops0 : List StoreOp}
    (hf : findFirstByIp s.machines cand = (some m, ops0))
    (hc : hardwareConflict m.hardware_id hid = true) :
    resolveByIp s hid cand =
      (Except.error RegistrationError.hardwareIdentityConflict, s, ops0) := by
  simp only [resolveByIp, hf, hc]
  rfl

theorem resolveByIp_nomatch {s : Store} {hid : Option Nat} {cand : List NetworkInterface}
    {ops0 : List StoreOp}
    (hf : findFirstByIp s.machines cand = (none, ops0)) :
    resolveByIp s hid cand =
      (Except.ok s.next_machine_id,
        Store.upsert_machine
          { s with next_machine_id := s.next_machine_id + 1 }
          ⟨s.next_machine_id, hid, cand, false⟩,
        ops0 ++ [StoreOp.newId s.next_machine_id,
          StoreOp.upsertMachine ⟨s.next_machine_id, hid, cand, false⟩]) := by
  simp only [resolveByIp, hf, Store.get_new_id]

theorem recordCommunication_found {s : Store} {sip : Nat} {k : Machine}
    (hk : (get_machines_by_ip sip s.machines).head? = some k) (fid : Nat) :
    recordCommunication s fid sip =
      (s.upsert_communication ⟨fid, k.id, CommunicationType.cc⟩,
        [StoreOp.findByIp sip,
          StoreOp.upsertCommunication ⟨fid, k.id, CommunicationType.cc⟩]) := by
  simp only [recordCommunication, hk]

theorem recordCommunication_not_found {s : Store} {sip : Nat}
    (hk : (get_machines_by_ip sip s.machines).head? = none) (fid : Nat) :
    recordCommunication s fid sip =
      ((Store.upsert_machine { s with next_machine_id := s.next_machine_id + 1 }
          ⟨s.next_machine_id, none, [⟨sip, 32⟩], false⟩).upsert_communication
          ⟨fid, s.next_machine_id, CommunicationType.cc⟩,
        [StoreOp.findByIp sip, StoreOp.newId s.next_machine_id,
          StoreOp.upsertMachine ⟨s.next_machine_id, none, [⟨sip, 32⟩], false⟩,
          StoreOp.upsertCommunication ⟨fid, s.next_machine_id, CommunicationType.cc⟩]) := by
  simp only [recordCommunication, hk, Store.get_new_id]

theorem handle_of_resolve_ok {s : Store} {r : AgentRegistrationData} {aid : Nat}
    {s₁ : Store} {ops : List StoreOp}
    (hres : resolve s r.machine_hardware_id r.network_interfaces =
      (Except.ok aid, s₁, ops)) :
    handle_agent_registration s r =
      (Except.ok (),
        (recordCommunication
          (s₁.upsert_agent ⟨r.id, aid, r.start_time, r.parent_id, r.cc_server⟩)
          aid r.cc_server.ip).1,
        ops ++ StoreOp.upsertAgent ⟨r.id, aid, r.start_time, r.parent_id, r.cc_server⟩ ::
          (recordCommunication
            (s₁.upsert_agent ⟨r.id, aid, r.start_time, r.parent_id, r.cc_server⟩)
            aid r.cc_server.ip).2) := by
  simp only [handle_agent_registration, hres]

theorem handle_of_resolve_error {s : Store} {r : AgentRegistrationData}
    {e : RegistrationError} {s₁ : Store} {ops : List StoreOp}
    (hres : resolve s r.machine_hardware_id r.network_interfaces =
      (Except.error e, s₁, ops)) :
    handle_agent_registration s r = (Except.error e, s₁, ops) := by
  simp only [handle_agent_registration, hres]

/-- A resolver failure writes nothing: the store comes back unchanged. -/
theorem resolve_error_inv {s : Store} {hid : Option Nat} {ifs : List NetworkInterface}
    {e : RegistrationError} {s₁ : Store} {ops : List StoreOp}
    (h : resolve s hid ifs = (Except.error e, s₁, ops)) : s₁ = s := by
  have hbyip : ∀ (hid' : Option Nat) (ops2 : List StoreOp),
      resolveByIp s hid' (canonicalize ifs) = (Except.error e, s₁, ops2) → s₁ = s := by
    intro hid' ops2 h'
    rcases hff : findFirstByIp s.machines (canonicalize ifs) with ⟨fst, ops0⟩
    cases fst with
    | none =>
      rw [resolveByIp_nomatch hff] at h'
      exact absurd (congrArg Prod.fst h') (by simp)
    | some m =>
      cases hc : hardwareConflict m.hardware_id hid' with
      | false =>
        rw [resolveByIp_match hff hc] at h'
        exact absurd (congrArg Prod.fst h') (by simp)
      | true =>
        rw [resolveByIp_conflict hff hc] at h'
        have := congrArg (fun p => p.2.1) h'
        exact this.symm
  cases hid with
  | none =>
    rw [resolve_none_eq] at h
    exact hbyip none ops h
  | some h0 =>
    cases hfind : get_machine_by_hardware_id h0 s.machines with
    | some m =>
      rw [resolve_hid_found hfind] at h
      exact absurd (congrArg Prod.fst h) (by simp)
    | none =>
      rw [resolve_hid_not_found hfind] at h
      rcases hx : resolveByIp s (some h0) (canonicalize ifs) with ⟨res, s', ops'⟩
      rw [hx] at h
      have h1 : res = Except.error e := congrArg Prod.fst h
      have h2 : s' = s₁ := congrArg (fun p => p.2.1) h
      subst h1 h2
      exact hbyip h0 ops' hx

/-- Inversion of a successful resolver run: either the machine was found by
hardware id and merged, or found by IP overlap and updated without conflict,
or a new machine was created with a fresh id. -/
theorem resolve_ok_inv {s : Store} {hid : Option Nat} {ifs : List NetworkInterface}
    {aid : Nat} {s₁ : Store} {ops : List StoreOp}
    (h : resolve s hid ifs = (Except.ok aid, s₁, ops)) :
    s₁.agents = s.agents ∧ s₁.communications = s.communications ∧
    ((∃ h0 m, hid = some h0 ∧ get_machine_by_hardware_id h0 s.machines = some m ∧
        aid = m.id ∧ s₁.next_machine_id = s.next_machine_id ∧
        s₁.machines = upsertBy Machine.id
          (updatedMachine m m.hardware_id (canonicalize ifs)) s.machines) ∨
      (∃ m, (∀ h0, hid = some h0 → get_machine_by_hardware_id h0 s.machines = none) ∧
        (findFirstByIp s.machines (canonicalize ifs)).1 = some m ∧
        hardwareConflict m.hardware_id hid = false ∧ aid = m.id ∧
        s₁.next_machine_id = s.next_machine_id ∧
        s₁.machines = upsertBy Machine.id
          (updatedMachine m (learnHardwareId m.hardware_id hid) (canonicalize ifs))
          s.machines) ∨
      ((∀ h0, hid = some h0 → get_machine_by_hardware_id h0 s.machines = none) ∧
        (findFirstByIp s.machines (canonicalize ifs)).1 = none ∧
        aid = s.next_machine_id ∧
        s₁.next_machine_id = s.next_machine_id + 1 ∧
        s₁.machines = upsertBy Machine.id
          (Machine.mk s.next_machine_id hid (canonicalize ifs) false) s.machines)) := by
  have hbyip : ∀ (hid' : Option Nat) (ops2 : List StoreOp),
      (∀ h0, hid' = some h0 → get_machine_by_hardware_id h0 s.machines = none) →
      resolveByIp s hid' (canonicalize ifs) = (Except.ok aid, s₁, ops2) →
      s₁.agents = s.agents ∧ s₁.communications = s.communications ∧
      ((∃ m, (∀ h0, hid' = some h0 → get_machine_by_hardware_id h0 s.machines = none) ∧
          (findFirstByIp s.machines (canonicalize ifs)).1 = some m ∧
          hardwareConflict m.hardware_id hid' = false ∧ aid = m.id ∧
          s₁.next_machine_id = s.next_machine_id ∧
          s₁.machines = upsertBy Machine.id
            (updatedMachine m (learnHardwareId m.hardware_id hid') (canonicalize ifs))
            s.machines) ∨
        ((∀ h0, hid' = some h0 → get_machine_by_hardware_id h0 s.machines = none) ∧
          (findFirstByIp s.machines (canonicalize ifs)).1 = none ∧
          aid = s.next_machine_id ∧
          s₁.next_machine_id = s.next_machine_id + 1 ∧
          s₁.machines = upsertBy Machine.id
            (Machine.mk s.next_machine_id hid' (canonicalize ifs) false) s.machines)) := by
    intro hid' ops2 hno h'
    rcases hff : findFirstByIp s.machines (canonicalize ifs) with ⟨fst, ops0⟩
    cases fst with
    | none =>
      rw [resolveByIp_nomatch hff] at h'
      have h1 : aid = s.next_machine_id := by
        have := congrArg Prod.fst h'
        simpa using this.symm
      have h2 : s₁ = Store.upsert_machine { s with next_machine_id := s.next_machine_id + 1 }
          ⟨s.next_machine_id, hid', canonicalize ifs, false⟩ :=
        (congrArg (fun p => p.2.1) h').symm
      subst h2
      refine ⟨rfl, rfl, Or.inr ⟨hno, rfl, h1, rfl, rfl⟩⟩
    | some m =>
      cases hc : hardwareConflict m.hardware_id hid' with
      | true =>
        rw [resolveByIp_conflict hff hc] at h'
        exact absurd (congrArg Prod.fst h') (by simp)
      | false =>
        rw [resolveByIp_match hff hc] at h'
        have h1 : aid = m.id := by
          have := congrArg Prod.fst h'
          simpa using this.symm
        have h2 : s₁ = s.upsert_machine
            (updatedMachine m (learnHardwareId m.hardware_id hid') (canonicalize ifs)) :=
          (congrArg (fun p => p.2.1) h').symm
        subst h2
        exact ⟨rfl, rfl, Or.inl ⟨m, hno, rfl, hc, h1, rfl, rfl⟩⟩
  cases hid with
  | none =>
    rw [resolve_none_eq] at h
    rcases hbyip none ops (by intro h0 hc; cases hc) h with ⟨ha, hcmm, hcases⟩
    exact ⟨ha, hcmm, Or.inr hcases⟩
  | some h0 =>
    cases hfind : get_machine_by_hardware_id h0 s.machines with
    | some m =>
      rw [resolve_hid_found hfind] at h
      have h1 : aid = m.id := by
        have := congrArg Prod.fst h
        simpa using this.symm
      have h2 : s₁ = s.upsert_machine (updatedMachine m m.hardware_id (canonicalize ifs)) :=
        (congrArg (fun p => p.2.1) h).symm
      subst h2
      exact ⟨rfl, rfl, Or.inl ⟨h0, m, rfl, hfind, h1, rfl, rfl⟩⟩
    | none =>
      rw [resolve_hid_not_found hfind] at h
      rcases hx : resolveByIp s (some h0) (canonicalize ifs) with ⟨res, s', ops'⟩
      rw [hx] at h
      have h1 : res = Except.ok aid := congrArg Prod.fst h
      have h2 : s' = s₁ := congrArg (fun p => p.2.1) h
      subst h1 h2
      rcases hbyip (some h0) ops' (by intro h1 hh; injection hh with hh'; exact hh' ▸ hfind) hx with
        ⟨ha, hcmm, hcases⟩
      exact ⟨ha, hcmm, Or.inr hcases⟩

theorem get_machine_by_hardware_id_some {h0 : Nat} {l : List Machine} {m : Machine}
    (h : get_machine_by_hardware_id h0 l = some m) : m ∈ l ∧ m.hardware_id = some h0 := by
  have h' : l.find? (fun y => decide (y.hardware_id = some h0)) = some m := h
  refine ⟨List.mem_of_find?_eq_some h', ?_⟩
  have hb := List.find?_some h'
  simpa using hb

theorem get_machine_by_hardware_id_none {h0 : Nat} {l : List Machine}
    (h : get_machine_by_hardware_id h0 l = none) :
    ∀ x ∈ l, (fun y => decide (y.hardware_id = some h0)) x = false := by
  intro x hx
  have hx' := List.find?_eq_none.mp h x hx
  simpa using hx'

theorem updatedMachine_id (m : Machine) (hw : Option Nat) (cand : List NetworkInterface) :
    (updatedMachine m hw cand).id = m.id := rfl

theorem updatedMachine_hardware (m : Machine) (hw : Option Nat)
    (cand : List NetworkInterface) : (updatedMachine m hw cand).hardware_id = hw := rfl

theorem updatedMachine_matches {m : Machine} {hw : Option Nat}
    {cand : List NetworkInterface} {i : NetworkInterface} (hi : i ∈ cand) :
    machineMatchesIp i.ip (updatedMachine m hw cand) = true :=
  machineMatchesIp_iff.mpr ⟨i, subset_mergeInterfaces hi, rfl⟩

theorem upsertBy_stable_ext {α β : Type} [DecidableEq β] {key : α → β} {x : α}
    {l tm : List α}
    (ht : tm = upsertBy key x l ∨ ∃ c, tm = upsertBy key x l ++ [c] ∧ key c ≠ key x) :
    upsertBy key x tm = tm := by
  rcases ht with rfl | ⟨c, rfl, hc⟩
  · exact upsertBy_idem key x l
  · refine upsertBy_append_stable ?_
    intro y hy
    rcases List.mem_singleton.mp hy with rfl
    exact hc

theorem find?_ext {α : Type} {p : α → Bool} {v : α} {base tm : List α}
    (hbase : base.find? p = some v)
    (ht : tm = base ∨ ∃ c, tm = base ++ [c]) : tm.find? p = some v := by
  rcases ht with rfl | ⟨c, rfl⟩
  · exact hbase
  · exact find?_append_of_some _ hbase

/-- Replaying a successful resolution: if a resolve succeeded on a well-formed
store, running the resolver again for the same registration data — on the
resulting store, possibly extended with one extra machine that carries no
hardware id, a non-conflicting id and no candidate IP (the machine the
recorder may have created for the controller) — resolves to the same machine
id and leaves the store unchanged. -/
theorem resolve_replay {s : Store} {hid : Option Nat} {ifs : List NetworkInterface}
    {aid : Nat} {s₁ : Store} {ops : List StoreOp}
    (hwf : StoreWF s) (hne : ifs ≠ [])
    (h : resolve s hid ifs = (Except.ok aid, s₁, ops))
    (t : Store)
    (ht : t.machines = s₁.machines ∨
      ∃ c : Machine, t.machines = s₁.machines ++ [c] ∧ c.hardware_id = none ∧
        c.id ≠ aid ∧ ∀ i ∈ canonicalize ifs, machineMatchesIp i.ip c = false) :
    (resolve t hid ifs).1 = Except.ok aid ∧ (resolve t hid ifs).2.1 = t := by
  have htw : t.machines = s₁.machines ∨ ∃ c, t.machines = s₁.machines ++ [c] := by
    rcases ht with h' | ⟨c, h', _⟩
    · exact Or.inl h'
    · exact Or.inr ⟨c, h'⟩
  rcases resolve_ok_inv h with ⟨-, -, hcase⟩
  rcases hcase with ⟨h0, m, rfl, hfind, haid, hnext, hml⟩ |
    ⟨m, hno, hfc, hnc, haid, hnext, hml⟩ | ⟨hno, hfcn, haid, hnext, hml⟩
  · -- found by hardware id and merged
    rcases get_machine_by_hardware_id_some hfind with ⟨hm, hmhw⟩
    set v := updatedMachine m m.hardware_id (canonicalize ifs) with hv
    have hvid : v.id = m.id := rfl
    have hrepl : s₁.machines =
        s.machines.map (fun y => if y.id = v.id then v else y) := by
      rw [hml]
      exact upsertBy_of_exists_key ⟨m, hm, hvid.symm⟩
    have hpv : (fun y => decide (y.hardware_id = some h0)) v = true := by
      simp [hv, updatedMachine, hmhw]
    have hfind' : s.machines.find? (fun y => decide (y.hardware_id = some h0)) = some m :=
      hfind
    have hbase : s₁.machines.find? (fun y => decide (y.hardware_id = some h0)) = some v := by
      rw [hrepl]
      exact find?_map_ite_of_found (p := fun (y : Machine) => decide (y.hardware_id = some h0))
        (Q := fun y => y.id = v.id) hpv hvid.symm hfind'
    have hfound_t : get_machine_by_hardware_id h0 t.machines = some v :=
      find?_ext hbase htw
    rw [resolve_hid_found hfound_t]
    constructor
    · rw [haid, ← hvid]
    · have hvv : updatedMachine v v.hardware_id (canonicalize ifs) = v := by
        rw [hv, updatedMachine_hardware]
        exact updatedMachine_stable m m.hardware_id (canonicalize ifs)
      rw [hvv]
      refine Store.upsert_machine_eq_self (upsertBy_stable_ext (l := s.machines) ?_)
      rcases ht with h' | ⟨c, h', -, hcne, -⟩
      · exact Or.inl (h'.trans hml)
      · refine Or.inr ⟨c, by rw [h', hml], ?_⟩
        rw [hvid]
        exact fun hc => hcne (hc.trans haid.symm)
  · -- found by IP overlap and updated
    have hm : m ∈ s.machines := findFirstByIp_some_mem hfc
    set v := updatedMachine m (learnHardwareId m.hardware_id hid) (canonicalize ifs) with hv
    have hvid : v.id = m.id := rfl
    have hrepl : s₁.machines =
        s.machines.map (fun y => if y.id = v.id then v else y) := by
      rw [hml]
      exact upsertBy_of_exists_key ⟨m, hm, hvid.symm⟩
    have hstab : (resolve t hid ifs).2.1 = t →
        (resolve t hid ifs).2.1 = t := id
    have hupstable : upsertBy Machine.id v t.machines = t.machines := by
      refine upsertBy_stable_ext (l := s.machines) ?_
      rcases ht with h' | ⟨c, h', -, hcne, -⟩
      · exact Or.inl (h'.trans hrepl ▸ (h'.trans hml))
      · refine Or.inr ⟨c, by rw [h', hml], ?_⟩
        rw [hvid]
        exact fun hc => hcne (hc.trans haid.symm)
    cases hid with
    | some h0 =>
      have hnone := hno h0 rfl
      have hall := get_machine_by_hardware_id_none hnone
      have hpv : (fun y => decide (y.hardware_id = some h0)) v = true := by
        simp only [hv, updatedMachine_hardware,
          learnHardwareId_of_no_conflict hnc, decide_eq_true_eq]
      have hbase : s₁.machines.find? (fun y => decide (y.hardware_id = some h0)) = some v := by
        rw [hrepl]
        exact find?_map_ite_of_none (p := fun (y : Machine) => decide (y.hardware_id = some h0))
          (Q := fun y => y.id = v.id) hpv hall ⟨m, hm, hvid.symm⟩
      have hfound_t : get_machine_by_hardware_id h0 t.machines = some v :=
        find?_ext hbase htw
      rw [resolve_hid_found hfound_t]
      constructor
      · rw [haid, ← hvid]
      · have hvv : updatedMachine v v.hardware_id (canonicalize ifs) = v := by
          rw [hv, updatedMachine_hardware]
          exact updatedMachine_stable m _ (canonicalize ifs)
        rw [hvv]
        exact Store.upsert_machine_eq_self hupstable
    | none =>
      rcases hcand : canonicalize ifs with _ | ⟨i₀, rest⟩
      · exact absurd hcand (canonicalize_ne_nil hne)
      · have hi₀ : i₀ ∈ canonicalize ifs := by rw [hcand]; exact List.mem_cons_self i₀ rest
        have hpv : machineMatchesIp i₀.ip v = true := by
          rw [hv]
          exact updatedMachine_matches hi₀
        rw [hcand] at hfc
        have hbase : s₁.machines.find? (machineMatchesIp i₀.ip) = some v := by
          rw [hrepl]
          rcases findFirstByIp_cons_inv hfc with hsome | ⟨hnone, -⟩
          · exact find?_map_ite_of_found (p := machineMatchesIp i₀.ip)
              (Q := fun y => y.id = v.id) hpv hvid.symm hsome
          · refine find?_map_ite_of_none (p := machineMatchesIp i₀.ip)
              (Q := fun y => y.id = v.id) hpv ?_ ⟨m, hm, hvid.symm⟩
            intro x hx
            have := List.find?_eq_none.mp hnone x hx
            simpa using this
        have hfound_t : t.machines.find? (machineMatchesIp i₀.ip) = some v :=
          find?_ext hbase htw
        rcases hfft : findFirstByIp t.machines (canonicalize ifs) with ⟨fst, ops0⟩
        have hfst : fst = some v := by
          have := congrArg Prod.fst hfft
          rw [hcand, findFirstByIp_cons, hfound_t] at this
          exact this.symm
        subst hfst
        rw [resolve_none_eq,
          resolveByIp_match hfft (hardwareConflict_none_right v.hardware_id)]
        constructor
        · rw [haid, ← hvid]
        · have hvv : updatedMachine v (learnHardwareId v.hardware_id none)
              (canonicalize ifs) = v := by
            rw [learnHardwareId_none_right, hv, updatedMachine_hardware]
            exact updatedMachine_stable m _ (canonicalize ifs)
          rw [hvv]
          exact Store.upsert_machine_eq_self hupstable
  · -- no match at all: machine created with a fresh id
    set M : Machine := ⟨s.next_machine_id, hid, canonicalize ifs, false⟩ with hM
    have hids : ∀ y ∈ s.machines, Machine.id y ≠ Machine.id M := by
      intro y hy
      exact Nat.ne_of_lt (hwf.machine_ids_lt y hy)
    have happ : s₁.machines = s.machines ++ [M] := by
      rw [hml]
      exact upsertBy_of_forall_ne hids
    have hMmem : M ∈ s₁.machines := by
      rw [happ]
      simp
    have hupstable : upsertBy Machine.id M t.machines = t.machines := by
      refine upsertBy_stable_ext (l := s.machines) ?_
      rcases ht with h' | ⟨c, h', -, hcne, -⟩
      · exact Or.inl (h'.trans hml)
      · refine Or.inr ⟨c, by rw [h', hml], ?_⟩
        exact fun hc => hcne (hc.trans haid.symm)
    have hmergecand : mergeInterfaces (canonicalize ifs) (canonicalize ifs) =
        canonicalize ifs :=
      mergeInterfaces_self_of_pairwise (pairwise_canonicalize ifs)
    cases hid with
    | some h0 =>
      have hnone := hno h0 rfl
      have hall := get_machine_by_hardware_id_none hnone
      have hpM : (fun y => decide (y.hardware_id = some h0)) M = true := by
        simp [hM]
      have hbase : s₁.machines.find? (fun y => decide (y.hardware_id = some h0)) = some M := by
        rw [happ]
        exact find?_append_right_of_none (p := fun (y : Machine) => decide (y.hardware_id = some h0))
          hpM hall
      have hfound_t : get_machine_by_hardware_id h0 t.machines = some M :=
        find?_ext hbase htw
      rw [resolve_hid_found hfound_t]
      constructor
      · rw [haid]
      · have hMM : updatedMachine M M.hardware_id (canonicalize ifs) = M := by
          simp [updatedMachine, hM, hmergecand]
        rw [hMM]
        exact Store.upsert_machine_eq_self hupstable
    | none =>
      rcases hcand : canonicalize ifs with _ | ⟨i₀, rest⟩
      · exact absurd hcand (canonicalize_ne_nil hne)
      · have hi₀ : i₀ ∈ canonicalize ifs := by rw [hcand]; exact List.mem_cons_self i₀ rest
        have hpM : machineMatchesIp i₀.ip M = true := by
          refine machineMatchesIp_iff.mpr ⟨i₀, ?_, rfl⟩
          rw [hM]
          exact hi₀
        have hall_ip := findFirstByIp_none_forall hfcn i₀ hi₀
        have hbase : s₁.machines.find? (machineMatchesIp i₀.ip) = some M := by
          rw [happ]
          refine find?_append_right_of_none hpM ?_
          intro x hx
          have := List.find?_eq_none.mp hall_ip x hx
          simpa using this
        have hfound_t : t.machines.find? (machineMatchesIp i₀.ip) = some M :=
          find?_ext hbase htw
        rcases hfft : findFirstByIp t.machines (canonicalize ifs) with ⟨fst, ops0⟩
        have hfst : fst = some M := by
          have := congrArg Prod.fst hfft
          rw [hcand, findFirstByIp_cons, hfound_t] at this
          exact this.symm
        subst hfst
        rw [resolve_none_eq,
          resolveByIp_match hfft (hardwareConflict_none_right M.hardware_id)]
        constructor
        · rw [haid]
        · have hMM : updatedMachine M (learnHardwareId M.hardware_id none)
              (canonicalize ifs) = M := by
            rw [learnHardwareId_none_right]
            simp [updatedMachine, hM, hmergecand]
          rw [hMM]
          exact Store.upsert_machine_eq_self hupstable

theorem Store.upsert_agent_agents (s : Store) (a : Agent) :
    (s.upsert_agent a).agents = upsertBy Agent.id a s.agents := rfl

theorem Store.upsert_communication_agents (s : Store) (e : CommunicationEdge) :
    (s.upsert_communication e).agents = s.agents := rfl

theorem Store.upsert_machine_communications (s : Store) (m : Machine) :
    (s.upsert_machine m).communications = s.communications := rfl

theorem Store.upsert_agent_communications (s : Store) (a : Agent) :
    (s.upsert_agent a).communications = s.communications := rfl

theorem Store.upsert_communication_communications (s : Store) (e : CommunicationEdge) :
    (s.upsert_communication e).communications =
      upsertBy (fun x => x) e s.communications := rfl

theorem Store.upsert_machine_next (s : Store) (m : Machine) :
    (s.upsert_machine m).next_machine_id = s.next_machine_id := rfl

theorem Store.upsert_agent_next (s : Store) (a : Agent) :
    (s.upsert_agent a).next_machine_id = s.next_machine_id := rfl

theorem Store.upsert_communication_next (s : Store) (e : CommunicationEdge) :
    (s.upsert_communication e).next_machine_id = s.next_machine_id := rfl

/-- A successful resolve on a well-formed store keeps all machine ids below
the allocator counter. -/
theorem resolve_ids_lt {s : Store} {hid : Option Nat} {ifs : List NetworkInterface}
    {aid : Nat} {s₁ : Store} {ops : List StoreOp}
    (hwf : StoreWF s) (h : resolve s hid ifs = (Except.ok aid, s₁, ops)) :
    ∀ x ∈ s₁.machines, x.id < s₁.next_machine_id := by
  rcases resolve_ok_inv h with ⟨-, -, hcase⟩
  rcases hcase with ⟨h0, m, _, hfind, haid, hnext, hml⟩ |
    ⟨m, _, hfc, _, haid, hnext, hml⟩ | ⟨_, _, haid, hnext, hml⟩
  · intro x hx
    rw [hml] at hx
    rw [hnext]
    rcases mem_upsertBy hx with hx' | rfl
    · exact hwf.machine_ids_lt x hx'
    · rw [updatedMachine_id]
      exact hwf.machine_ids_lt m (get_machine_by_hardware_id_some hfind).1
  · intro x hx
    rw [hml] at hx
    rw [hnext]
    rcases mem_upsertBy hx with hx' | rfl
    · exact hwf.machine_ids_lt x hx'
    · rw [updatedMachine_id]
      exact hwf.machine_ids_lt m (findFirstByIp_some_mem hfc)
  · intro x hx
    rw [hml] at hx
    rw [hnext]
    rcases mem_upsertBy hx with hx' | rfl
    · exact Nat.lt_succ_of_lt (hwf.machine_ids_lt x hx')
    · exact Nat.lt_succ_self _

/-- A successful resolve on a well-formed store returns an id below the
resulting allocator counter. -/
theorem resolve_aid_lt {s : Store} {hid : Option Nat} {ifs : List NetworkInterface}
    {aid : Nat} {s₁ : Store} {ops : List StoreOp}
    (hwf : StoreWF s) (h : resolve s hid ifs = (Except.ok aid, s₁, ops)) :
    aid < s₁.next_machine_id := by
  rcases resolve_ok_inv h with ⟨-, -, hcase⟩
  rcases hcase with ⟨h0, m, _, hfind, haid, hnext, hml⟩ |
    ⟨m, _, hfc, _, haid, hnext, hml⟩ | ⟨_, _, haid, hnext, hml⟩
  · rw [haid, hnext]
    exact hwf.machine_ids_lt m (get_machine_by_hardware_id_some hfind).1
  · rw [haid, hnext]
    exact hwf.machine_ids_lt m (findFirstByIp_some_mem hfc)
  · rw [haid, hnext]
    exact Nat.lt_succ_self _

/-- After a successful resolve, the store holds a machine with the resolved id
that covers every candidate IP of the registration. -/
theorem resolve_resolved_machine {s : Store} {hid : Option Nat}
    {ifs : List NetworkInterface} {aid : Nat} {s₁ : Store} {ops : List StoreOp}
    (h : resolve s hid ifs = (Except.ok aid, s₁, ops)) :
    ∃ v ∈ s₁.machines, v.id = aid ∧
      ∀ i ∈ canonicalize ifs, machineMatchesIp i.ip v = true := by
  rcases resolve_ok_inv h with ⟨-, -, hcase⟩
  rcases hcase with ⟨h0, m, _, hfind, haid, hnext, hml⟩ |
    ⟨m, _, hfc, _, haid, hnext, hml⟩ | ⟨_, _, haid, hnext, hml⟩
  · refine ⟨updatedMachine m m.hardware_id (canonicalize ifs), ?_, ?_, ?_⟩
    · rw [hml]
      exact mem_upsertBy_self _ _ _
    · rw [updatedMachine_id, haid]
    · intro i hi
      exact updatedMachine_matches hi
  · refine ⟨updatedMachine m (learnHardwareId m.hardware_id hid) (canonicalize ifs),
      ?_, ?_, ?_⟩
    · rw [hml]
      exact mem_upsertBy_self _ _ _
    · rw [updatedMachine_id, haid]
    · intro i hi
      exact updatedMachine_matches hi
  · refine ⟨⟨s.next_machine_id, hid, canonicalize ifs, false⟩, ?_, ?_, ?_⟩
    · rw [hml]
      exact mem_upsertBy_self _ _ _
    · rw [haid]
    · intro i hi
      exact machineMatchesIp_iff.mpr ⟨i, hi, rfl⟩

/-- C2: processing the identical registration event twice leaves the store in
the same final state as processing it once — no additional machine, agent or
communication-edge records are created by the replay and no record's contents
change — for every well-formed initial store and every registration with a
non-empty interface set. -/
theorem handle_agent_registration_idempotent (s : Store) (r : AgentRegistrationData)
    (hwf : StoreWF s) (hne : r.network_interfaces ≠ []) :
    (handle_agent_registration (handle_agent_registration s r).2.1 r).2.1 =
      (handle_agent_registration s r).2.1 := by
  rcases hres : resolve s r.machine_hardware_id r.network_interfaces with ⟨res, s₁, ops₁⟩
  cases res with
  | error e =>
    have hs₁ : s₁ = s := resolve_error_inv hres
    subst hs₁
    rw [handle_of_resolve_error hres]
    rw [handle_of_resolve_error hres]
  | ok aid =>
    have hh1 := handle_of_resolve_ok hres
    rcases resolve_ok_inv hres with ⟨hag, hcm, -⟩
    rcases hrec : (get_machines_by_ip r.cc_server.ip
        (s₁.upsert_agent ⟨r.id, aid, r.start_time, r.parent_id, r.cc_server⟩).machines).head?
      with _ | k
    · -- unknown controller: a controller machine is created
      rw [recordCommunication_not_found hrec aid] at hh1
      rw [hh1]
      rw [Store.upsert_agent_machines] at hrec
      have hfnone : s₁.machines.find? (machineMatchesIp r.cc_server.ip) = none := by
        rw [← get_machines_by_ip_head?]
        exact hrec
      have hallnone : ∀ x ∈ s₁.machines, machineMatchesIp r.cc_server.ip x = false := by
        intro x hx
        have := List.find?_eq_none.mp hfnone x hx
        simpa using this
      rcases resolve_resolved_machine hres with ⟨v, hvmem, hvid, hvcov⟩
      have hcandip : ∀ i ∈ canonicalize r.network_interfaces, i.ip ≠ r.cc_server.ip := by
        intro i hi hip
        have h1 := hvcov i hi
        rw [hip] at h1
        rw [hallnone v hvmem] at h1
        cases h1
      have hidagent := resolve_ids_lt hwf hres
      have haidlt := resolve_aid_lt hwf hres
      set sag := s₁.upsert_agent ⟨r.id, aid, r.start_time, r.parent_id, r.cc_server⟩
        with hsag
      set C : Machine := ⟨sag.next_machine_id, none, [⟨r.cc_server.ip, 32⟩], false⟩
        with hC
      set e : CommunicationEdge := ⟨aid, sag.next_machine_id, CommunicationType.cc⟩
        with he
      set s₃ := (Store.upsert_machine
        { sag with next_machine_id := sag.next_machine_id + 1 } C).upsert_communication e
        with hs₃
      have hsagm : sag.machines = s₁.machines := rfl
      have hsagn : sag.next_machine_id = s₁.next_machine_id := rfl
      have hs₃m : s₃.machines = s₁.machines ++ [C] := by
        rw [hs₃, Store.upsert_communication_machines, Store.upsert_machine_machines]
        refine (upsertBy_of_forall_ne ?_).trans (by rw [hsagm])
        intro y hy
        have : y.id < sag.next_machine_id := by
          rw [hsagn]
          exact hidagent y hy
        exact Nat.ne_of_lt this
      have hCnm : ∀ i ∈ canonicalize r.network_interfaces,
          machineMatchesIp i.ip C = false := by
        intro i hi
        rw [hC]
        simp only [machineMatchesIp, List.any_cons, List.any_nil, Bool.or_false,
          decide_eq_false_iff_not]
        exact fun hip => hcandip i hi hip.symm
      have hCid : C.id ≠ aid := by
        rw [hC]
        intro hcc
        rw [← hcc] at haidlt
        rw [hsagn] at haidlt
        exact Nat.lt_irrefl _ haidlt
      have hrep := resolve_replay hwf hne hres s₃
        (Or.inr ⟨C, hs₃m, rfl, hCid, hCnm⟩)
      rcases hres2 : resolve s₃ r.machine_hardware_id r.network_interfaces
        with ⟨res2, s₁', ops₁'⟩
      have hres2ok : res2 = Except.ok aid := by
        have h1 := hrep.1
        rw [hres2] at h1
        exact h1
      have hs₁' : s₁' = s₃ := by
        have h1 := hrep.2
        rw [hres2] at h1
        exact h1
      subst hres2ok
      subst hs₁'
      rw [handle_of_resolve_ok hres2]
      have hs₃ag : s₃.agents =
          upsertBy Agent.id ⟨r.id, aid, r.start_time, r.parent_id, r.cc_server⟩ s.agents := by
        rw [hs₃, Store.upsert_communication_agents, Store.upsert_machine_agents]
        show sag.agents = _
        rw [hsag, Store.upsert_agent_agents, hag]
      have hupag : s₃.upsert_agent ⟨r.id, aid, r.start_time, r.parent_id, r.cc_server⟩ = s₃ := by
        refine Store.upsert_agent_eq_self ?_
        rw [hs₃ag]
        exact upsertBy_idem _ _ _
      rw [hupag]
      have hfind3 : (get_machines_by_ip r.cc_server.ip s₃.machines).head? = some C := by
        rw [get_machines_by_ip_head?, hs₃m]
        refine find?_append_right_of_none ?_ ?_
        · rw [hC]
          simp [machineMatchesIp]
        · intro x hx
          exact hallnone x hx
      rw [recordCommunication_found hfind3 aid]
      refine Store.upsert_communication_eq_self ?_
      have hs₃cm : s₃.communications = upsertBy (fun x => x) e s.communications := by
        rw [hs₃, Store.upsert_communication_communications,
          Store.upsert_machine_communications]
        show upsertBy _ e sag.communications = _
        rw [hsag, Store.upsert_agent_communications, hcm]
      have hCide : (⟨aid, C.id, CommunicationType.cc⟩ : CommunicationEdge) = e := rfl
      rw [hCide, hs₃cm]
      exact upsertBy_idem _ _ _
    · -- known controller: only the edge is upserted
      rw [recordCommunication_found hrec aid] at hh1
      rw [hh1]
      rw [Store.upsert_agent_machines] at hrec
      set sag := s₁.upsert_agent ⟨r.id, aid, r.start_time, r.parent_id, r.cc_server⟩
        with hsag
      set e : CommunicationEdge := ⟨aid, k.id, CommunicationType.cc⟩ with he
      set s₃ := sag.upsert_communication e with hs₃
      have hs₃m : s₃.machines = s₁.machines := rfl
      have hrep := resolve_replay hwf hne hres s₃ (Or.inl hs₃m)
      rcases hres2 : resolve s₃ r.machine_hardware_id r.network_interfaces
        with ⟨res2, s₁', ops₁'⟩
      have hres2ok : res2 = Except.ok aid := by
        have h1 := hrep.1
        rw [hres2] at h1
        exact h1
      have hs₁' : s₁' = s₃ := by
        have h1 := hrep.2
        rw [hres2] at h1
        exact h1
      subst hres2ok
      subst hs₁'
      rw [handle_of_resolve_ok hres2]
      have hs₃ag : s₃.agents =
          upsertBy Agent.id ⟨r.id, aid, r.start_time, r.parent_id, r.cc_server⟩ s.agents := by
        rw [hs₃, Store.upsert_communication_agents, hsag, Store.upsert_agent_agents, hag]
      have hupag : s₃.upsert_agent ⟨r.id, aid, r.start_time, r.parent_id, r.cc_server⟩ = s₃ := by
        refine Store.upsert_agent_eq_self ?_
        rw [hs₃ag]
        exact upsertBy_idem _ _ _
      rw [hupag]
      have hfind3 : (get_machines_by_ip r.cc_server.ip s₃.machines).head? = some k := by
        rw [hs₃m, ← Store.upsert_agent_machines s₁
          ⟨r.id, aid, r.start_time, r.parent_id, r.cc_server⟩]
        exact hrec
      rw [recordCommunication_found hfind3 aid]
      refine Store.upsert_communication_eq_self ?_
      have hs₃cm : s₃.communications = upsertBy (fun x => x) e s.communications := by
        rw [hs₃, Store.upsert_communication_communications,
          hsag, Store.upsert_agent_communications, hcm]
      rw [hs₃cm]
      exact upsertBy_idem _ _ _

theorem eq_of_pairwise_id {l : List Machine}
    (hp : l.Pairwise (fun a b => a.id ≠ b.id)) {x y : Machine}
    (hx : x ∈ l) (hy : y ∈ l) (hid : x.id = y.id) : x = y := by
  induction l with
  | nil => cases hx
  | cons a as ih =>
    rcases List.pairwise_cons.mp hp with ⟨ha, hp'⟩
    rcases List.mem_cons.mp hx with rfl | hx'
    · rcases List.mem_cons.mp hy with rfl | hy'
      · rfl
      · exact absurd hid (ha y hy')
    · rcases List.mem_cons.mp hy with rfl | hy'
      · exact absurd hid.symm (ha x hx')
      · exact ih hp' hx' hy'

theorem updatedMachine_matches_other {m : Machine} {hw : Option Nat}
    {cand : List NetworkInterface} {sip : Nat}
    (hnc : ∀ i ∈ cand, i.ip ≠ sip) :
    machineMatchesIp sip (updatedMachine m hw cand) = machineMatchesIp sip m := by
  rw [Bool.eq_iff_iff, machineMatchesIp_iff, machineMatchesIp_iff]
  constructor
  · rintro ⟨j, hj, hjip⟩
    rcases mem_mergeInterfaces.mp hj with ⟨hjm, -⟩ | hjc
    · exact ⟨j, hjm, hjip⟩
    · exact absurd hjip (hnc j hjc)
  · rintro ⟨j, hj, hjip⟩
    refine ⟨j, mem_mergeInterfaces.mpr (Or.inl ⟨hj, ?_⟩), hjip⟩
    intro c hc hcip
    exact hnc c hc (hcip.trans hjip)

theorem find?_map_ite_id {p : Machine → Bool} {v K : Machine} :
    ∀ {l : List Machine}, l.find? p = some K →
      (∀ x ∈ l, x.id = v.id → p v = p x) →
      ∃ K2, (l.map (fun x => if x.id = v.id then v else x)).find? p = some K2 ∧
        K2.id = K.id := by
  intro l
  induction l with
  | nil => intro h; simp at h
  | cons a as ih =>
    intro h hpv
    rw [List.map_cons]
    by_cases hQa : a.id = v.id
    · rw [if_pos hQa]
      have hpa := hpv a (List.mem_cons_self a as) hQa
      cases hb : p a with
      | true =>
        rw [List.find?_cons_of_pos _ hb] at h
        injection h with h'
        refine ⟨v, List.find?_cons_of_pos _ (hpa.trans hb), ?_⟩
        rw [← h', hQa.symm]
      | false =>
        rw [List.find?_cons_of_neg _ (by simp [hb])] at h
        rcases ih h (fun x hx => hpv x (List.mem_cons_of_mem a hx)) with ⟨K2, hK2, hK2id⟩
        exact ⟨K2, by rw [List.find?_cons_of_neg _ (by simp [hpa, hb])]; exact hK2, hK2id⟩
    · rw [if_neg hQa]
      cases hb : p a with
      | true =>
        rw [List.find?_cons_of_pos _ hb] at h
        injection h with h'
        exact ⟨a, List.find?_cons_of_pos _ hb, by rw [h']⟩
      | false =>
        rw [List.find?_cons_of_neg _ (by simp [hb])] at h
        rcases ih h (fun x hx => hpv x (List.mem_cons_of_mem a hx)) with ⟨K2, hK2, hK2id⟩
        exact ⟨K2, by rw [List.find?_cons_of_neg _ (by simp [hb])]; exact hK2, hK2id⟩

/-- Decomposition of a successful processing run: the agent record keyed by
the registration's agent id is upserted with the resolved machine id, and the
recorder either reuses the first stored machine matching the controller IP or
appends one fresh controller machine; exactly one controller-communication
edge is upserted. -/
theorem handle_ok_components {s : Store} {r : AgentRegistrationData} {aid : Nat}
    {s₁ : Store} {ops : List StoreOp} (hwf : StoreWF s)
    (hres : resolve s r.machine_hardware_id r.network_interfaces =
      (Except.ok aid, s₁, ops)) :
    (handle_agent_registration s r).1 = Except.ok () ∧
    (handle_agent_registration s r).2.1.agents =
      upsertBy Agent.id ⟨r.id, aid, r.start_time, r.parent_id, r.cc_server⟩ s.agents ∧
    ((∃ k, (get_machines_by_ip r.cc_server.ip s₁.machines).head? = some k ∧
        (handle_agent_registration s r).2.1.machines = s₁.machines ∧
        (handle_agent_registration s r).2.1.next_machine_id = s₁.next_machine_id ∧
        (handle_agent_registration s r).2.1.communications =
          upsertBy (fun x => x) ⟨aid, k.id, CommunicationType.cc⟩ s.communications) ∨
      ((get_machines_by_ip r.cc_server.ip s₁.machines).head? = none ∧
        (handle_agent_registration s r).2.1.machines =
          s₁.machines ++ [⟨s₁.next_machine_id, none, [⟨r.cc_server.ip, 32⟩], false⟩] ∧
        (handle_agent_registration s r).2.1.next_machine_id = s₁.next_machine_id + 1 ∧
        (handle_agent_registration s r).2.1.communications =
          upsertBy (fun x => x) ⟨aid, s₁.next_machine_id, CommunicationType.cc⟩
            s.communications)) := by
  have hh1 := handle_of_resolve_ok hres
  rcases resolve_ok_inv hres with ⟨hag, hcm, -⟩
  set A : Agent := ⟨r.id, aid, r.start_time, r.parent_id, r.cc_server⟩ with hA
  have hsagm : (s₁.upsert_agent A).machines = s₁.machines := rfl
  have hsaga : (s₁.upsert_agent A).agents = upsertBy Agent.id A s₁.agents := rfl
  have hsagc : (s₁.upsert_agent A).communications = s₁.communications := rfl
  have hsagn : (s₁.upsert_agent A).next_machine_id = s₁.next_machine_id := rfl
  rcases hrec : (get_machines_by_ip r.cc_server.ip s₁.machines).head? with _ | k
  · rw [recordCommunication_not_found (by rw [hsagm]; exact hrec) aid] at hh1
    rw [hh1]
    refine ⟨rfl, ?_, Or.inr ⟨rfl, ?_, ?_, ?_⟩⟩
    · rw [Store.upsert_communication_agents, Store.upsert_machine_agents]
      have hbump : ({ s₁.upsert_agent A with
          next_machine_id := (s₁.upsert_agent A).next_machine_id + 1 } : Store).agents =
          upsertBy Agent.id A s₁.agents := hsaga
      rw [hbump, hag]
    · rw [Store.upsert_communication_machines, Store.upsert_machine_machines]
      have hbump : ({ s₁.upsert_agent A with
          next_machine_id := (s₁.upsert_agent A).next_machine_id + 1 } : Store).machines =
          s₁.machines := hsagm
      rw [hbump]
      have happ : upsertBy Machine.id
          (⟨(s₁.upsert_agent A).next_machine_id, none,
            [⟨r.cc_server.ip, 32⟩], false⟩ : Machine) s₁.machines =
          s₁.machines ++ [⟨(s₁.upsert_agent A).next_machine_id, none,
            [⟨r.cc_server.ip, 32⟩], false⟩] := by
        refine upsertBy_of_forall_ne ?_
        intro y hy
        rw [hsagn]
        exact Nat.ne_of_lt (resolve_ids_lt hwf hres y hy)
      rw [happ, hsagn]
    · rw [Store.upsert_communication_next, Store.upsert_machine_next]
      show (s₁.upsert_agent A).next_machine_id + 1 = _
      rw [hsagn]
    · rw [Store.upsert_communication_communications, Store.upsert_machine_communications]
      have hbump : ({ s₁.upsert_agent A with
          next_machine_id := (s₁.upsert_agent A).next_machine_id + 1 } : Store).communications =
          s₁.communications := hsagc
      rw [hbump, hcm, hsagn]
  · rw [recordCommunication_found (by rw [hsagm]; exact hrec) aid] at hh1
    rw [hh1]
    refine ⟨rfl, ?_, Or.inl ⟨k, rfl, hsagm, hsagn, ?_⟩⟩
    · rw [Store.upsert_communication_agents, hsaga, hag]
    · rw [Store.upsert_communication_communications, hsagc, hcm]

/-- On a well-formed store, looking a machine up by a hardware id held by a
stored machine returns exactly that machine. -/
theorem get_machine_by_hardware_id_unique {s : Store} (hwf : StoreWF s)
    {m : Machine} {H : Nat} (hm : m ∈ s.machines) (hmhw : m.hardware_id = some H) :
    get_machine_by_hardware_id H s.machines = some m := by
  rcases hy : get_machine_by_hardware_id H s.machines with _ | y
  · have h1 := List.find?_eq_none.mp hy m hm
    simp [hmhw] at h1
  · rcases get_machine_by_hardware_id_some hy with ⟨hymem, hyhw⟩
    have h2 : y = m :=
      hwf.hardware_ids_unique y hymem m hm (by rw [hyhw]; rfl) (by rw [hyhw, hmhw])
    rw [h2]

theorem findFirstByIp_none_of_forall {machines : List Machine} :
    ∀ {cand : List NetworkInterface},
      (∀ i ∈ cand, machines.find? (machineMatchesIp i.ip) = none) →
      (findFirstByIp machines cand).1 = none := by
  intro cand
  induction cand with
  | nil => intro _; rfl
  | cons i rest ih =>
    intro hall
    rw [findFirstByIp_cons, hall i (List.mem_cons_self i rest)]
    exact ih (fun j hj => hall j (List.mem_cons_of_mem i hj))

theorem findFirstByIp_ops {machines : List Machine} :
    ∀ {cand : List NetworkInterface} {op : StoreOp},
      op ∈ (findFirstByIp machines cand).2 → ∃ ip, op = StoreOp.findByIp ip := by
  intro cand
  induction cand with
  | nil => intro op hop; simp [findFirstByIp] at hop
  | cons i rest ih =>
    intro op hop
    rw [findFirstByIp] at hop
    rcases hh : (get_machines_by_ip i.ip machines).head? with _ | mm
    · rw [hh] at hop
      simp only [List.mem_cons] at hop
      rcases hop with rfl | hop'
      · exact ⟨i.ip, rfl⟩
      · exact ih hop'
    · rw [hh] at hop
      simp only [List.mem_singleton] at hop
      exact ⟨i.ip, hop⟩

theorem resolve_next_ge {s : Store} {hid : Option Nat} {ifs : List NetworkInterface}
    {aid : Nat} {s₁ : Store} {ops : List StoreOp}
    (h : resolve s hid ifs = (Except.ok aid, s₁, ops)) :
    s.next_machine_id ≤ s₁.next_machine_id := by
  rcases resolve_ok_inv h with ⟨-, -, hcase⟩
  rcases hcase with ⟨_, _, _, _, _, hnext, _⟩ | ⟨_, _, _, _, _, hnext, _⟩ |
    ⟨_, _, _, hnext, _⟩ <;> omega

/-- If no stored machine matches the controller IP and the registration's
interfaces do not carry it either, no machine matches it after resolution. -/
theorem resolve_no_controller_match {s : Store} {hid : Option Nat}
    {ifs : List NetworkInterface} {aid : Nat} {s₁ : Store} {ops : List StoreOp}
    {sip : Nat}
    (h : resolve s hid ifs = (Except.ok aid, s₁, ops))
    (hnos : ∀ x ∈ s.machines, machineMatchesIp sip x = false)
    (hnoc : ∀ i ∈ canonicalize ifs, i.ip ≠ sip) :
    ∀ x ∈ s₁.machines, machineMatchesIp sip x = false := by
  rcases resolve_ok_inv h with ⟨-, -, hcase⟩
  rcases hcase with ⟨h0, m, _, hfind, haid, hnext, hml⟩ |
    ⟨m, _, hfc, _, haid, hnext, hml⟩ | ⟨_, _, haid, hnext, hml⟩
  · intro x hx
    rw [hml] at hx
    rcases mem_upsertBy hx with hx' | rfl
    · exact hnos x hx'
    · rw [updatedMachine_matches_other hnoc]
      exact hnos m (get_machine_by_hardware_id_some hfind).1
  · intro x hx
    rw [hml] at hx
    rcases mem_upsertBy hx with hx' | rfl
    · exact hnos x hx'
    · rw [updatedMachine_matches_other hnoc]
      exact hnos m (findFirstByIp_some_mem hfc)
  · intro x hx
    rw [hml] at hx
    rcases mem_upsertBy hx with hx' | rfl
    · exact hnos x hx'
    · simp only [machineMatchesIp, List.any_eq_false, decide_eq_false_iff_not]
      intro i hi
      simp only [decide_eq_true_eq]
      exact hnoc i hi


/-- After resolution the first stored machine matching the controller IP still
carries the same machine id, provided the registration's interfaces do not
carry that IP. -/
theorem resolve_preserves_controller_match {s : Store} {hid : Option Nat}
    {ifs : List NetworkInterface} {aid : Nat} {s₁ : Store} {ops : List StoreOp}
    {sip : Nat} {K : Machine} (hwf : StoreWF s)
    (h : resolve s hid ifs = (Except.ok aid, s₁, ops))
    (hK : s.machines.find? (machineMatchesIp sip) = some K)
    (hnoc : ∀ i ∈ canonicalize ifs, i.ip ≠ sip) :
    ∃ K2, s₁.machines.find? (machineMatchesIp sip) = some K2 ∧ K2.id = K.id := by
  rcases resolve_ok_inv h with ⟨-, -, hcase⟩
  rcases hcase with ⟨h0, m, _, hfind, haid, hnext, hml⟩ |
    ⟨m, _, hfc, _, haid, hnext, hml⟩ | ⟨_, _, haid, hnext, hml⟩
  · have hm : m ∈ s.machines := (get_machine_by_hardware_id_some hfind).1
    have hrepl : s₁.machines = s.machines.map
        (fun y => if y.id = (updatedMachine m m.hardware_id (canonicalize ifs)).id
          then updatedMachine m m.hardware_id (canonicalize ifs) else y) := by
      rw [hml]
      exact upsertBy_of_exists_key ⟨m, hm, rfl⟩
    rw [hrepl]
    refine find?_map_ite_id hK ?_
    intro x hx hxid
    have hxm : x = m := eq_of_pairwise_id hwf.machine_ids_unique hx hm hxid
    rw [hxm, updatedMachine_matches_other hnoc]
  · have hm : m ∈ s.machines := findFirstByIp_some_mem hfc
    have hrepl : s₁.machines = s.machines.map
        (fun y => if y.id = (updatedMachine m (learnHardwareId m.hardware_id hid)
            (canonicalize ifs)).id
          then updatedMachine m (learnHardwareId m.hardware_id hid) (canonicalize ifs)
          else y) := by
      rw [hml]
      exact upsertBy_of_exists_key ⟨m, hm, rfl⟩
    rw [hrepl]
    refine find?_map_ite_id hK ?_
    intro x hx hxid
    have hxm : x = m := eq_of_pairwise_id hwf.machine_ids_unique hx hm hxid
    rw [hxm, updatedMachine_matches_other hnoc]
  · have happ : s₁.machines = s.machines ++
        [⟨s.next_machine_id, hid, canonicalize ifs, false⟩] := by
      rw [hml]
      refine upsertBy_of_forall_ne ?_
      intro y hy
      exact Nat.ne_of_lt (hwf.machine_ids_lt y hy)
    rw [happ]
    exact ⟨K, find?_append_of_some _ hK, rfl⟩

theorem count_upsertBy_self {e : CommunicationEdge} {l : List CommunicationEdge}
    (h : l.Nodup) : (upsertBy (fun x => x) e l).count e = 1 := by
  by_cases he : e ∈ l
  · rw [upsertBy_of_exists_key ⟨e, he, rfl⟩]
    have hmap : l.map (fun y => if y = e then e else y) = l :=
      map_replace_id (fun y _ hy => hy)
    rw [hmap]
    have h1 : l.count e ≤ 1 := List.nodup_iff_count_le_one.mp h e
    have h2 : 0 < l.count e := List.count_pos_iff.mpr he
    omega
  · have hne2 : ∀ y ∈ l, (fun (x : CommunicationEdge) => x) y ≠ (fun (x : CommunicationEdge) => x) e := by
      intro y hy hk
      have hk2 : y = e := hk
      exact he (hk2 ▸ hy)
    rw [upsertBy_of_forall_ne hne2, List.count_append,
      List.count_eq_zero.mpr he]
    simp

/-- In both recorder branches, filtering the final machine list by the id of
the machine the resolver upserted yields exactly that machine. -/
theorem filter_resolved_machine {s : Store} {r : AgentRegistrationData} {aid : Nat}
    {s₁ : Store} {ops : List StoreOp} (hwf : StoreWF s)
    (hres : resolve s r.machine_hardware_id r.network_interfaces =
      (Except.ok aid, s₁, ops))
    (v : Machine) (hup : s₁.machines = upsertBy Machine.id v s.machines)
    (hvlt : v.id < s.next_machine_id) :
    (handle_agent_registration s r).2.1.machines.filter
      (fun x => decide (x.id = v.id)) = [v] := by
  have hbase : (upsertBy Machine.id v s.machines).filter
      (fun x => decide (x.id = v.id)) = [v] :=
    filter_upsertBy_of_pairwise hwf.machine_ids_unique
  rcases (handle_ok_components hwf hres).2.2 with ⟨k, -, hm, -, -⟩ | ⟨-, hm, -, -⟩
  · rw [hm, hup]
    exact hbase
  · rw [hm, hup, List.filter_append]
    have h2 : ([(⟨s₁.next_machine_id, none, [⟨r.cc_server.ip, 32⟩], false⟩ : Machine)]).filter
        (fun x => decide (x.id = v.id)) = [] := by
      have hge := resolve_next_ge hres
      simp only [List.filter_cons, List.filter_nil]
      rw [if_neg]
      simp only [decide_eq_true_eq]
      omega
    rw [hbase, h2, List.append_nil]

/-- C3 (amended): if a machine is stored with hardware id `H` and a
registration arrives with the same hardware id `H`, processing succeeds and
updates that same machine — same id, same hardware id — and its stored
interface set becomes the stored interfaces whose IP does not occur among the
registration's interfaces together with all the registration's interfaces, in
canonical ascending order without duplicates; the resolver performs no
IP-overlap lookup (step 2 is unused). -/
theorem hardware_id_match_updates_machine (s : Store) (r : AgentRegistrationData)
    (m : Machine) (H : Nat) (hwf : StoreWF s)
    (hm : m ∈ s.machines) (hmhw : m.hardware_id = some H)
    (hrhw : r.machine_hardware_id = some H) :
    (handle_agent_registration s r).1 = Except.ok () ∧
    (handle_agent_registration s r).2.1.machines.filter
        (fun x => decide (x.id = (updatedMachine m m.hardware_id
          (canonicalize r.network_interfaces)).id)) =
      [updatedMachine m m.hardware_id (canonicalize r.network_interfaces)] ∧
    (updatedMachine m m.hardware_id (canonicalize r.network_interfaces)).id = m.id ∧
    (updatedMachine m m.hardware_id
        (canonicalize r.network_interfaces)).hardware_id = some H ∧
    (∀ i, i ∈ (updatedMachine m m.hardware_id
        (canonicalize r.network_interfaces)).network_interfaces ↔
      ((i ∈ m.network_interfaces ∧ ∀ j ∈ r.network_interfaces, j.ip ≠ i.ip) ∨
        i ∈ r.network_interfaces)) ∧
    (updatedMachine m m.hardware_id
        (canonicalize r.network_interfaces)).network_interfaces.Pairwise interfaceLt ∧
    ∀ op ∈ (resolve s r.machine_hardware_id r.network_interfaces).2.2,
      op.isIpLookup = false := by
  have hfind : get_machine_by_hardware_id H s.machines = some m :=
    get_machine_by_hardware_id_unique hwf hm hmhw
  have hres : resolve s r.machine_hardware_id r.network_interfaces =
      (Except.ok m.id,
        s.upsert_machine (updatedMachine m m.hardware_id
          (canonicalize r.network_interfaces)),
        [StoreOp.findByHardwareId H,
          StoreOp.upsertMachine (updatedMachine m m.hardware_id
            (canonicalize r.network_interfaces))]) := by
    rw [hrhw]
    exact resolve_hid_found hfind r.network_interfaces
  refine ⟨(handle_ok_components hwf hres).1, ?_, rfl, hmhw, ?_, ?_, ?_⟩
  · exact filter_resolved_machine hwf hres _
      (Store.upsert_machine_machines s _) (hwf.machine_ids_lt m hm)
  · intro i
    show i ∈ mergeInterfaces m.network_interfaces (canonicalize r.network_interfaces) ↔ _
    rw [mem_mergeInterfaces]
    constructor
    · rintro (⟨h1, h2⟩ | h1)
      · exact Or.inl ⟨h1, fun j hj => h2 j (mem_canonicalize.mpr hj)⟩
      · exact Or.inr (mem_canonicalize.mp h1)
    · rintro (⟨h1, h2⟩ | h1)
      · exact Or.inl ⟨h1, fun j hj => h2 j (mem_canonicalize.mp hj)⟩
      · exact Or.inr (mem_canonicalize.mpr h1)
  · exact pairwise_mergeInterfaces _ _
  · rw [hres]
    intro op hop
    rcases List.mem_cons.mp hop with rfl | hop'
    · rfl
    · rcases List.mem_cons.mp hop' with rfl | hop2
      · rfl
      · simp at hop2

/-- C3 counterexample: the claim's "union of S and T, deduplicated by exact
(ip, prefix) pair" fails — a stored interface whose IP reappears in the
registration with another prefix length is dropped, not kept: with stored
interfaces `[102/32]` and registration interfaces `[102/24]`, the updated
machine stores `[102/24]` while the exact-pair union is
`[102/24, 102/32]`. -/
theorem hardware_id_match_union_counterexample :
    (handle_agent_registration ⟨[⟨2, some 5, [⟨102, 32⟩], false⟩], [], [], 10⟩
        ⟨77, some 5, 0, none, ⟨101, 5000⟩, [⟨102, 24⟩]⟩).2.1.machines.filter
      (fun x => decide (x.id = 2)) = [⟨2, some 5, [⟨102, 24⟩], false⟩] ∧
    canonicalize ([⟨102, 32⟩] ++ [⟨102, 24⟩]) = [⟨102, 24⟩, ⟨102, 32⟩] ∧
    [(⟨102, 24⟩ : NetworkInterface)] ≠ [⟨102, 24⟩, ⟨102, 32⟩] := by
  decide

/-- C4 (amended): if the registration's hardware id `H` is bound to no stored
machine and the step-2 iteration's first IP-overlap match is a stored machine
`P` with no hardware id, processing succeeds and updates `P` in place: same
id, `hardware_id` becomes `H`, and its interface set becomes the stored
interfaces whose IP does not occur among the registration's interfaces
together with all the registration's interfaces, in canonical order. -/
theorem ip_overlap_binds_hardware_id (s : Store) (r : AgentRegistrationData)
    (P : Machine) (H : Nat) (hwf : StoreWF s)
    (hrhw : r.machine_hardware_id = some H)
    (hnof : get_machine_by_hardware_id H s.machines = none)
    (hPhw : P.hardware_id = none)
    (hfc : (findFirstByIp s.machines (canonicalize r.network_interfaces)).1 = some P) :
    (handle_agent_registration s r).1 = Except.ok () ∧
    (handle_agent_registration s r).2.1.machines.filter
        (fun x => decide (x.id =
          (updatedMachine P (some H) (canonicalize r.network_interfaces)).id)) =
      [updatedMachine P (some H) (canonicalize r.network_interfaces)] ∧
    (updatedMachine P (some H) (canonicalize r.network_interfaces)).id = P.id ∧
    (updatedMachine P (some H)
        (canonicalize r.network_interfaces)).hardware_id = some H ∧
    (∀ i, i ∈ (updatedMachine P (some H)
        (canonicalize r.network_interfaces)).network_interfaces ↔
      ((i ∈ P.network_interfaces ∧ ∀ j ∈ r.network_interfaces, j.ip ≠ i.ip) ∨
        i ∈ r.network_interfaces)) := by
  rcases hff : findFirstByIp s.machines (canonicalize r.network_interfaces)
    with ⟨fst, ops0⟩
  have hfst : fst = some P := by
    have h1 := congrArg Prod.fst hff
    rw [hfc] at h1
    exact h1.symm
  subst hfst
  have hlearn : learnHardwareId P.hardware_id (some H) = some H := by
    rw [hPhw]
    rfl
  have hconf : hardwareConflict P.hardware_id (some H) = false := by
    rw [hPhw]
    rfl
  have hby : resolveByIp s (some H) (canonicalize r.network_interfaces) =
      (Except.ok P.id,
        s.upsert_machine (updatedMachine P (some H) (canonicalize r.network_interfaces)),
        ops0 ++ [StoreOp.upsertMachine
          (updatedMachine P (some H) (canonicalize r.network_interfaces))]) := by
    have h1 := resolveByIp_match hff hconf
    rw [hlearn] at h1
    exact h1
  have hres : resolve s r.machine_hardware_id r.network_interfaces =
      (Except.ok P.id,
        s.upsert_machine (updatedMachine P (some H) (canonicalize r.network_interfaces)),
        StoreOp.findByHardwareId H ::
          (ops0 ++ [StoreOp.upsertMachine
            (updatedMachine P (some H) (canonicalize r.network_interfaces))])) := by
    rw [hrhw, resolve_hid_not_found hnof, hby]
  have hPmem : P ∈ s.machines := findFirstByIp_some_mem hfc
  refine ⟨(handle_ok_components hwf hres).1, ?_, rfl, rfl, ?_⟩
  · exact filter_resolved_machine hwf hres _
      (Store.upsert_machine_machines s _) (hwf.machine_ids_lt P hPmem)
  · intro i
    show i ∈ mergeInterfaces P.network_interfaces (canonicalize r.network_interfaces) ↔ _
    rw [mem_mergeInterfaces]
    constructor
    · rintro (⟨h1, h2⟩ | h1)
      · exact Or.inl ⟨h1, fun j hj => h2 j (mem_canonicalize.mpr hj)⟩
      · exact Or.inr (mem_canonicalize.mp h1)
    · rintro (⟨h1, h2⟩ | h1)
      · exact Or.inl ⟨h1, fun j hj => h2 j (mem_canonicalize.mp hj)⟩
      · exact Or.inr (mem_canonicalize.mpr h1)

/-- C4 counterexample: the claim's "its interface set becomes the union of its
stored interfaces and the registration's interfaces" fails — with a stored
interface `102/32` and a registration interface `102/24` the updated machine
stores only `[102/24]`: the stored interface is replaced because its IP occurs
in the registration, so the union's element `102/32` is gone. -/
theorem ip_overlap_union_counterexample :
    (handle_agent_registration ⟨[⟨1, none, [⟨102, 32⟩], false⟩], [], [], 10⟩
        ⟨77, some 5, 0, none, ⟨101, 5000⟩, [⟨102, 24⟩]⟩).2.1.machines.filter
      (fun x => decide (x.id = 1)) = [⟨1, some 5, [⟨102, 24⟩], false⟩] ∧
    (⟨102, 32⟩ : NetworkInterface) ∈
      ([⟨102, 32⟩] : List NetworkInterface) ++ [⟨102, 24⟩] ∧
    ¬ (⟨102, 32⟩ : NetworkInterface) ∈
      ([⟨102, 24⟩] : List NetworkInterface) := by
  decide

/-- C5: a registration whose hardware id is bound to no stored machine and
none of whose interface IPs matches any stored machine creates exactly one
new machine for the agent, carrying the freshly allocated id, the
registration's hardware id and the registration's interface set exactly as
given (the set being in canonical form). -/
theorem new_machine_created (s : Store) (r : AgentRegistrationData) (H : Nat)
    (hwf : StoreWF s) (hrhw : r.machine_hardware_id = some H)
    (hnof : get_machine_by_hardware_id H s.machines = none)
    (hnoip : ∀ i ∈ r.network_interfaces,
      s.machines.find? (machineMatchesIp i.ip) = none)
    (hcanon : canonicalize r.network_interfaces = r.network_interfaces) :
    (handle_agent_registration s r).1 = Except.ok () ∧
    (handle_agent_registration s r).2.1.machines.filter
        (fun x => decide (x.id = s.next_machine_id)) =
      [⟨s.next_machine_id, some H, r.network_interfaces, false⟩] ∧
    ∀ x ∈ s.machines, x.id ≠ s.next_machine_id := by
  have hnone : (findFirstByIp s.machines (canonicalize r.network_interfaces)).1
      = none := by
    refine findFirstByIp_none_of_forall ?_
    intro i hi
    exact hnoip i (mem_canonicalize.mp hi)
  rcases hff : findFirstByIp s.machines (canonicalize r.network_interfaces)
    with ⟨fst, ops0⟩
  have hfst : fst = none := by
    have h1 := congrArg Prod.fst hff
    rw [hnone] at h1
    exact h1.symm
  subst hfst
  have hres : resolve s r.machine_hardware_id r.network_interfaces =
      (Except.ok s.next_machine_id,
        Store.upsert_machine { s with next_machine_id := s.next_machine_id + 1 }
          ⟨s.next_machine_id, some H, canonicalize r.network_interfaces, false⟩,
        StoreOp.findByHardwareId H ::
          (ops0 ++ [StoreOp.newId s.next_machine_id,
            StoreOp.upsertMachine
              ⟨s.next_machine_id, some H, canonicalize r.network_interfaces, false⟩])) := by
    rw [hrhw, resolve_hid_not_found hnof, resolveByIp_nomatch hff]
  have hfresh : ∀ x ∈ s.machines, x.id ≠ s.next_machine_id := by
    intro x hx
    exact Nat.ne_of_lt (hwf.machine_ids_lt x hx)
  refine ⟨(handle_ok_components hwf hres).1, ?_, hfresh⟩
  have hup : (Store.upsert_machine { s with next_machine_id := s.next_machine_id + 1 }
      ⟨s.next_machine_id, some H, canonicalize r.network_interfaces, false⟩).machines =
      upsertBy Machine.id
        (⟨s.next_machine_id, some H, canonicalize r.network_interfaces, false⟩ : Machine)
        s.machines := rfl
  have hbase : (upsertBy Machine.id
      (⟨s.next_machine_id, some H, canonicalize r.network_interfaces, false⟩ : Machine)
      s.machines).filter (fun x => decide (x.id = s.next_machine_id)) =
      [⟨s.next_machine_id, some H, canonicalize r.network_interfaces, false⟩] :=
    filter_upsertBy_of_pairwise
      (x := ⟨s.next_machine_id, some H, canonicalize r.network_interfaces, false⟩)
      hwf.machine_ids_unique
  rcases (handle_ok_components hwf hres).2.2 with ⟨k, -, hm, -, -⟩ | ⟨-, hm, -, -⟩
  · rw [hm, hup, hcanon]
    rw [hcanon] at hbase
    exact hbase
  · rw [hm, hup, List.filter_append, hcanon]
    rw [hcanon] at hbase
    rw [hbase]
    show [(⟨s.next_machine_id, some H, r.network_interfaces, false⟩ : Machine)] ++
        List.filter (fun x => decide (x.id = s.next_machine_id))
          [(⟨s.next_machine_id + 1, none, [⟨r.cc_server.ip, 32⟩], false⟩ : Machine)] =
      [⟨s.next_machine_id, some H, r.network_interfaces, false⟩]
    have h2 : List.filter (fun x => decide (x.id = s.next_machine_id))
        [(⟨s.next_machine_id + 1, none, [⟨r.cc_server.ip, 32⟩], false⟩ : Machine)] = [] := by
      rw [List.filter_cons, if_neg (by simp)]
      rfl
    rw [h2, List.append_nil]

/-- C1 (amended): if a stored machine with hardware id `H1` and an interface
with IP `A` is the first IP-overlap match of a registration whose hardware id
`H2` differs from `H1` (both present, `H2` bound to no stored machine) and
whose interfaces include IP `A`, processing fails with
`hardwareIdentityConflict`, the store is left exactly as it was, and not one
store operation issued for the event is an upsert. -/
theorem conflict_rejects_registration (s : Store) (r : AgentRegistrationData)
    (m : Machine) (H1 H2 A : Nat)
    (hm : m ∈ s.machines) (hmhw : m.hardware_id = some H1)
    (hrhw : r.machine_hardware_id = some H2) (hne : H2 ≠ H1)
    (hnof : get_machine_by_hardware_id H2 s.machines = none)
    (hA1 : ∃ i ∈ m.network_interfaces, i.ip = A)
    (hA2 : ∃ i ∈ r.network_interfaces, i.ip = A)
    (hfirst : (findFirstByIp s.machines (canonicalize r.network_interfaces)).1 =
      some m) :
    (handle_agent_registration s r).1 =
      Except.error RegistrationError.hardwareIdentityConflict ∧
    (handle_agent_registration s r).2.1 = s ∧
    ∀ op ∈ (handle_agent_registration s r).2.2, op.isUpsert = false := by
  rcases hff : findFirstByIp s.machines (canonicalize r.network_interfaces)
    with ⟨fst, ops0⟩
  have hfst : fst = some m := by
    have h1 := congrArg Prod.fst hff
    rw [hfirst] at h1
    exact h1.symm
  subst hfst
  have hconf : hardwareConflict m.hardware_id (some H2) = true := by
    rw [hmhw]
    simp only [hardwareConflict, decide_eq_true_eq]
    exact fun hc => hne hc.symm
  have hres : resolve s r.machine_hardware_id r.network_interfaces =
      (Except.error RegistrationError.hardwareIdentityConflict, s,
        StoreOp.findByHardwareId H2 :: ops0) := by
    rw [hrhw, resolve_hid_not_found hnof, resolveByIp_conflict hff hconf]
  rw [handle_of_resolve_error hres]
  refine ⟨rfl, rfl, ?_⟩
  intro op hop
  rcases List.mem_cons.mp hop with rfl | hop'
  · rfl
  · have hops0 : op ∈ (findFirstByIp s.machines (canonicalize r.network_interfaces)).2 := by
      rw [hff]
      exact hop'
    rcases findFirstByIp_ops hops0 with ⟨ip, rfl⟩
    rfl

/-- C1 counterexample: the claim as stated is false when an earlier candidate
IP matches a different, non-conflicting stored machine.  Store: machine `X`
(id 1, no hardware id, interface 50/24) and machine `Y` (id 2, hardware id 7,
interface 60/24); registration: hardware id 9 (≠ 7, unbound), interfaces
`{50/24, 60/24}`.  All of the claim's premises hold for `Y` and IP 60, yet
processing succeeds — `X` absorbs the match at IP 50 — instead of failing
with a hardware-identity conflict. -/
theorem conflict_rejects_counterexample :
    ((⟨2, some 7, [⟨60, 24⟩], false⟩ : Machine) ∈
        [(⟨1, none, [⟨50, 24⟩], false⟩ : Machine), ⟨2, some 7, [⟨60, 24⟩], false⟩] ∧
      (⟨2, some 7, [⟨60, 24⟩], false⟩ : Machine).hardware_id = some 7 ∧
      (9 : Nat) ≠ 7 ∧
      get_machine_by_hardware_id 9
        [⟨1, none, [⟨50, 24⟩], false⟩, ⟨2, some 7, [⟨60, 24⟩], false⟩] = none ∧
      (∃ i ∈ (⟨2, some 7, [⟨60, 24⟩], false⟩ : Machine).network_interfaces,
        i.ip = 60) ∧
      (∃ i ∈ [(⟨50, 24⟩ : NetworkInterface), ⟨60, 24⟩], i.ip = 60)) ∧
    (handle_agent_registration
        ⟨[⟨1, none, [⟨50, 24⟩], false⟩, ⟨2, some 7, [⟨60, 24⟩], false⟩], [], [], 10⟩
        ⟨77, some 9, 0, none, ⟨101, 5000⟩, [⟨50, 24⟩, ⟨60, 24⟩]⟩).1 =
      Except.ok () := by
  decide

/-- C6 (amended): when no stored machine has an interface with the controller
address's IP, the registration's own interfaces do not carry that IP, and the
agent's machine resolves successfully, processing appends exactly one new
machine — fresh id, no hardware id, the single exact-host interface
`(controller ip, /32)` — and records exactly one controller-communication
edge from the agent's resolved machine id to that new machine's id. -/
theorem unknown_controller_creates_machine (s : Store) (r : AgentRegistrationData)
    (aid : Nat) (s₁ : Store) (ops : List StoreOp) (hwf : StoreWF s)
    (hres : resolve s r.machine_hardware_id r.network_interfaces =
      (Except.ok aid, s₁, ops))
    (hnos : ∀ x ∈ s.machines, machineMatchesIp r.cc_server.ip x = false)
    (hnoc : ∀ i ∈ r.network_interfaces, i.ip ≠ r.cc_server.ip) :
    (handle_agent_registration s r).1 = Except.ok () ∧
    (handle_agent_registration s r).2.1.machines =
      s₁.machines ++ [⟨s₁.next_machine_id, none, [⟨r.cc_server.ip, 32⟩], false⟩] ∧
    (∀ x ∈ s₁.machines, x.id ≠ s₁.next_machine_id) ∧
    (handle_agent_registration s r).2.1.communications.count
      ⟨aid, s₁.next_machine_id, CommunicationType.cc⟩ = 1 := by
  have hnos1 : ∀ x ∈ s₁.machines, machineMatchesIp r.cc_server.ip x = false :=
    resolve_no_controller_match hres hnos
      (fun i hi => hnoc i (mem_canonicalize.mp hi))
  have hhead : (get_machines_by_ip r.cc_server.ip s₁.machines).head? = none := by
    rw [get_machines_by_ip_head?]
    refine List.find?_eq_none.mpr ?_
    intro x hx
    rw [hnos1 x hx]
    simp
  rcases (handle_ok_components hwf hres).2.2 with ⟨k, hk, -, -, -⟩ | ⟨-, hm, -, hc⟩
  · rw [hhead] at hk
    cases hk
  · refine ⟨(handle_ok_components hwf hres).1, hm, ?_, ?_⟩
    · intro x hx
      exact Nat.ne_of_lt (resolve_ids_lt hwf hres x hx)
    · rw [hc]
      refine count_upsertBy_self ?_
      exact hwf.communications_nodup

/-- C6 counterexample: the claim as stated is false when the registration's
own interfaces carry the controller IP.  Empty store, registration with
interface 101/24 and controller address 101:5000: the controller IP matches
no stored machine, yet after processing no machine with no hardware id and
the single interface `(101, /32)` exists — the agent's freshly created
machine absorbed the controller match, so no controller-side machine was
created. -/
theorem unknown_controller_counterexample :
    (∀ x ∈ ([] : List Machine), machineMatchesIp 101 x = false) ∧
    (handle_agent_registration ⟨[], [], [], 10⟩
      ⟨77, some 5, 0, none, ⟨101, 5000⟩, [⟨101, 24⟩]⟩).1 = Except.ok () ∧
    (handle_agent_registration ⟨[], [], [], 10⟩
        ⟨77, some 5, 0, none, ⟨101, 5000⟩, [⟨101, 24⟩]⟩).2.1.machines.filter
      (fun x => decide (x.hardware_id = none ∧
        x.network_interfaces = [⟨101, 32⟩])) = [] := by
  decide

/-- C7 (amended): when the store's first machine matching the controller
address's IP is `K`, the registration's interfaces do not carry that IP, and
the agent's machine resolves successfully, processing records exactly one
controller-communication edge from the agent's resolved machine id to `K.id`,
and creates no machine for the controller side (the machine list and the
allocator counter are exactly those the resolver left). -/
theorem known_controller_records_edge (s : Store) (r : AgentRegistrationData)
    (aid : Nat) (s₁ : Store) (ops : List StoreOp) (K : Machine) (hwf : StoreWF s)
    (hres : resolve s r.machine_hardware_id r.network_interfaces =
      (Except.ok aid, s₁, ops))
    (hK : s.machines.find? (machineMatchesIp r.cc_server.ip) = some K)
    (hnoc : ∀ i ∈ r.network_interfaces, i.ip ≠ r.cc_server.ip) :
    (handle_agent_registration s r).1 = Except.ok () ∧
    (handle_agent_registration s r).2.1.machines = s₁.machines ∧
    (handle_agent_registration s r).2.1.next_machine_id = s₁.next_machine_id ∧
    (handle_agent_registration s r).2.1.communications.count
      ⟨aid, K.id, CommunicationType.cc⟩ = 1 := by
  rcases resolve_preserves_controller_match hwf hres hK
    (fun i hi => hnoc i (mem_canonicalize.mp hi)) with ⟨K2, hK2, hK2id⟩
  have hhead : (get_machines_by_ip r.cc_server.ip s₁.machines).head? = some K2 := by
    rw [get_machines_by_ip_head?]
    exact hK2
  rcases (handle_ok_components hwf hres).2.2 with ⟨k, hk, hm, hn, hc⟩ | ⟨hk, -, -, -⟩
  · have hkk : k = K2 := by
      rw [hhead] at hk
      injection hk with h1
      exact h1.symm
    subst hkk
    refine ⟨(handle_ok_components hwf hres).1, hm, hn, ?_⟩
    rw [hc, hK2id]
    exact count_upsertBy_self hwf.communications_nodup
  · rw [hhead] at hk
    cases hk

/-- C7 counterexample: the claim as stated is false when the registration's
interfaces carry the controller IP.  Store: the agent's machine (id 1,
hardware id 5, interface 50/24) and machine `K` (id 2, interface 101/24);
registration: hardware id 5, interfaces `{101/24}` (the controller IP),
controller address 101:5000.  `K` is a stored machine matching the controller
IP, yet the recorded edge goes to the agent's own machine (1 → 1): no edge
`(1, K.id = 2, cc)` exists after processing. -/
theorem known_controller_counterexample :
    ((⟨2, none, [⟨101, 24⟩], false⟩ : Machine) ∈
        [(⟨1, some 5, [⟨50, 24⟩], false⟩ : Machine), ⟨2, none, [⟨101, 24⟩], false⟩] ∧
      machineMatchesIp 101 (⟨2, none, [⟨101, 24⟩], false⟩ : Machine) = true) ∧
    (handle_agent_registration
        ⟨[⟨1, some 5, [⟨50, 24⟩], false⟩, ⟨2, none, [⟨101, 24⟩], false⟩], [], [], 10⟩
        ⟨77, some 5, 0, none, ⟨101, 5000⟩, [⟨101, 24⟩]⟩).1 = Except.ok () ∧
    (handle_agent_registration
        ⟨[⟨1, some 5, [⟨50, 24⟩], false⟩, ⟨2, none, [⟨101, 24⟩], false⟩], [], [], 10⟩
        ⟨77, some 5, 0, none, ⟨101, 5000⟩, [⟨101, 24⟩]⟩).2.1.communications.count
      ⟨1, 2, CommunicationType.cc⟩ = 0 := by
  decide

/-- C8: every successfully processed registration leaves exactly one agent
record keyed by the registration's agent id, holding the resolved machine id
and the registration's start time, parent id and controller address; a
pre-existing agent record with that id is overwritten. -/
theorem agent_record_upserted (s : Store) (r : AgentRegistrationData)
    (aid : Nat) (s₁ : Store) (ops : List StoreOp) (hwf : StoreWF s)
    (hres : resolve s r.machine_hardware_id r.network_interfaces =
      (Except.ok aid, s₁, ops)) :
    (handle_agent_registration s r).1 = Except.ok () ∧
    (handle_agent_registration s r).2.1.agents.filter
        (fun x => decide (x.id = r.id)) =
      [⟨r.id, aid, r.start_time, r.parent_id, r.cc_server⟩] := by
  obtain ⟨h1, hag, -⟩ := handle_ok_components hwf hres
  refine ⟨h1, ?_⟩
  rw [hag]
  exact filter_upsertBy_of_pairwise
    (x := ⟨r.id, aid, r.start_time, r.parent_id, r.cc_server⟩) hwf.agent_ids_unique

/-!
`FileAgentPluginRepository` (from
`monkey_island/cc/repositories/file_agent_plugin_repository.py`).  The plugin
file store and the archive parser are external collaborators: the repository's
behaviour is determined by what opening-and-parsing a given plugin file name
yields, which the embedding takes as a function.
-/

/-- An operating system a plugin may target (`common.OperatingSystem`). -/
inductive OperatingSystem where
  | linux
  | windows
deriving DecidableEq, Repr

/-- A type of agent plugin (`common.agent_plugins.AgentPluginType`). -/
inductive AgentPluginType where
  | credentials_collector
  | exploiter
  | fingerprinter
  | payload
deriving DecidableEq, Repr

/-- `plugin_type.value.lower()`, as interpolated into the archive file name. -/
def AgentPluginType.lowerValue : AgentPluginType → String
  | AgentPluginType.credentials_collector => "credentials_collector"
  | AgentPluginType.exploiter => "exploiter"
  | AgentPluginType.fingerprinter => "fingerprinter"
  | AgentPluginType.payload => "payload"

/-- An agent plugin as returned by `parse_plugin`; all fields except
`host_operating_systems` are opaque payload data. -/
structure AgentPlugin where
  plugin_manifest : Nat
  config_schema : Nat
  source_archive : List Nat
  host_operating_systems : List OperatingSystem
deriving DecidableEq, Repr

/-- An exception escaping `open_file`/`parse_plugin`: a `ValueError` raised by
`parse_plugin` on a malformed archive, or any other error (such as the file
repository's `FileNotFoundError`). -/
inductive PluginSourceError where
  | valueError (msg : String)
  | otherError (msg : String)
deriving DecidableEq, Repr

/-- An error raised by `FileAgentPluginRepository.get_plugin` itself
(`RetrievalError`) or propagated through it unchanged. -/
inductive GetPluginFailure where
  | retrievalError (msg : String)
  | propagated (e : PluginSourceError)
deriving DecidableEq, Repr

/-- The plugin archive file name `f"{name}-{plugin_type.value.lower()}.tar"`. -/
def plugin_file_name (name : String) (plugin_type : AgentPluginType) : String :=
  name ++ "-" ++ plugin_type.lowerValue ++ ".tar"

/-- `FileAgentPluginRepository`, abstracted over the behaviour of
`plugin_file_repository.open_file` composed with `parse_plugin` per file
name. -/
structure FileAgentPluginRepository where
  open_and_parse : String → Except PluginSourceError AgentPlugin

/-- `FileAgentPluginRepository._get_plugin`: open `{name}-{type}.tar` and
parse it; a `ValueError` from parsing becomes a `RetrievalError`, any other
exception propagates unchanged. -/
def FileAgentPluginRepository._get_plugin (repo : FileAgentPluginRepository)
    (plugin_type : AgentPluginType) (name : String) :
    Except GetPluginFailure AgentPlugin :=
  match repo.open_and_parse (plugin_file_name name plugin_type) with
  | Except.ok plugin => Except.ok plugin
  | Except.error (PluginSourceError.valueError msg) =>
    Except.error (GetPluginFailure.retrievalError
      ("Error retrieving the agent plugin " ++ plugin_file_name name plugin_type ++
        ": " ++ msg))
  | Except.error e => Except.error (GetPluginFailure.propagated e)

/-- `FileAgentPluginRepository.get_plugin`: retrieve and parse the plugin,
then return it only when the requested host operating system is among the
plugin's `host_operating_systems`; otherwise raise a `RetrievalError`. -/
def FileAgentPluginRepository.get_plugin (repo : FileAgentPluginRepository)
    (host_operating_system : OperatingSystem) (plugin_type : AgentPluginType)
    (name : String) : Except GetPluginFailure AgentPlugin :=
  match repo._get_plugin plugin_type name with
  | Except.error e => Except.error e
  | Except.ok plugin =>
    if host_operating_system ∈ plugin.host_operating_systems then Except.ok plugin
    else Except.error (GetPluginFailure.retrievalError
      ("Error retrieving the agent plugin " ++ name ++ " for OS"))

/-- C9: `get_plugin` returns the parsed plugin unchanged exactly when the
requested operating system is a member of the plugin's
`host_operating_systems`; when the parse succeeds but the OS is not a member,
and also whenever parsing raises a `ValueError`, it raises a
`RetrievalError`. -/
theorem get_plugin_spec (repo : FileAgentPluginRepository)
    (os : OperatingSystem) (t : AgentPluginType) (name : String) :
    (∀ p, repo.get_plugin os t name = Except.ok p ↔
      (repo.open_and_parse (plugin_file_name name t) = Except.ok p ∧
        os ∈ p.host_operating_systems)) ∧
    (∀ p, repo.open_and_parse (plugin_file_name name t) = Except.ok p →
      os ∉ p.host_operating_systems →
      ∃ msg, repo.get_plugin os t name =
        Except.error (GetPluginFailure.retrievalError msg)) ∧
    (∀ msg, repo.open_and_parse (plugin_file_name name t) =
        Except.error (PluginSourceError.valueError msg) →
      ∃ msg2, repo.get_plugin os t name =
        Except.error (GetPluginFailure.retrievalError msg2)) := by
  rcases hop : repo.open_and_parse (plugin_file_name name t) with e | p'
  · cases e with
    | valueError msg =>
      have hg : repo.get_plugin os t name =
          Except.error (GetPluginFailure.retrievalError
            ("Error retrieving the agent plugin " ++ plugin_file_name name t ++
              ": " ++ msg)) := by
        simp only [FileAgentPluginRepository.get_plugin,
          FileAgentPluginRepository._get_plugin, hop]
      refine ⟨?_, ?_, ?_⟩
      · intro p
        rw [hg]
        constructor
        · intro hc
          cases hc
        · rintro ⟨hc, -⟩
          cases hc
      · intro p hc
        cases hc
      · intro msg2 hc
        exact ⟨_, hg⟩
    | otherError msg =>
      have hg : repo.get_plugin os t name =
          Except.error (GetPluginFailure.propagated
            (PluginSourceError.otherError msg)) := by
        simp only [FileAgentPluginRepository.get_plugin,
          FileAgentPluginRepository._get_plugin, hop]
      refine ⟨?_, ?_, ?_⟩
      · intro p
        rw [hg]
        constructor
        · intro hc
          cases hc
        · rintro ⟨hc, -⟩
          cases hc
      · intro p hc
        cases hc
      · intro msg2 hc
        injection hc with hc'
        cases hc'
  · by_cases hos : os ∈ p'.host_operating_systems
    · have hg : repo.get_plugin os t name = Except.ok p' := by
        simp only [FileAgentPluginRepository.get_plugin,
          FileAgentPluginRepository._get_plugin, hop, if_pos hos]
      refine ⟨?_, ?_, ?_⟩
      · intro p
        rw [hg]
        constructor
        · intro hc
          injection hc with h1
          subst h1
          exact ⟨rfl, hos⟩
        · rintro ⟨h1, h2⟩
          injection h1 with h1'
          rw [h1']
      · intro p h1 h2
        injection h1 with h1'
        subst h1'
        exact absurd hos h2
      · intro msg hc
        cases hc
    · have hg : repo.get_plugin os t name =
          Except.error (GetPluginFailure.retrievalError
            ("Error retrieving the agent plugin " ++ name ++ " for OS")) := by
        simp only [FileAgentPluginRepository.get_plugin,
          FileAgentPluginRepository._get_plugin, hop, if_neg hos]
      refine ⟨?_, ?_, ?_⟩
      · intro p
        rw [hg]
        constructor
        · intro hc
          cases hc
        · rintro ⟨h1, h2⟩
          injection h1 with h1'
          subst h1'
          exact absurd h2 hos
      · intro p h1 h2
        exact ⟨_, hg⟩
      · intro msg hc
        cases hc

/-!
`save_stolen_credentials_to_repository` (from
`monkey_island/cc/agent_event_handlers/save_stolen_credentials_to_repository.py`).
The credentials repository is an external collaborator, abstracted as a state
transformer that may raise.
-/

/-- Stolen credentials carried by a `CredentialsStolenEvent`; the payload is
opaque. -/
structure Credentials where
  identity : Option Nat
  secret : Option Nat
deriving DecidableEq, Repr

/-- A `CredentialsStolenEvent`. -/
structure CredentialsStolenEvent where
  source : Nat
  timestamp : Nat
  stolen_credentials : List Credentials
deriving DecidableEq, Repr

/-- An exception escaping `ICredentialsRepository.save_stolen_credentials`:
the repository's `StorageError`, or any other error. -/
inductive CredentialsRepositoryError where
  | storageError (msg : String)
  | otherError (msg : String)
deriving DecidableEq, Repr

/-- `save_stolen_credentials_to_repository.__call__`, over an abstract
repository state `σ`: it calls `save_stolen_credentials` with exactly the
event's `stolen_credentials`; a `StorageError` is caught (and logged), the
handler returning normally with the state unchanged; any other exception
propagates.  The second component records the argument of each repository
call made. -/
def save_stolen_credentials_to_repository {σ : Type}
    (save_stolen_credentials :
      List Credentials → σ → Except CredentialsRepositoryError σ)
    (event : CredentialsStolenEvent) (st : σ) :
    Except CredentialsRepositoryError σ × List (List Credentials) :=
  match save_stolen_credentials event.stolen_credentials st with
  | Except.ok st2 => (Except.ok st2, [event.stolen_credentials])
  | Except.error (CredentialsRepositoryError.storageError _) =>
    (Except.ok st, [event.stolen_credentials])
  | Except.error e => (Except.error e, [event.stolen_credentials])

/-- C10: the handler makes exactly one repository call, passing exactly the
event's stolen credentials; when that call raises a `StorageError` the
handler catches it and returns normally with the repository state unchanged;
a `StorageError` is never propagated to the caller. -/
theorem save_stolen_credentials_spec {σ : Type}
    (save : List Credentials → σ → Except CredentialsRepositoryError σ)
    (event : CredentialsStolenEvent) (st : σ) :
    (save_stolen_credentials_to_repository save event st).2 =
      [event.stolen_credentials] ∧
    (∀ msg, save event.stolen_credentials st =
        Except.error (CredentialsRepositoryError.storageError msg) →
      (save_stolen_credentials_to_repository save event st).1 = Except.ok st) ∧
    (∀ msg, (save_stolen_credentials_to_repository save event st).1 ≠
      Except.error (CredentialsRepositoryError.storageError msg)) := by
  rcases hs : save event.stolen_credentials st with e | st2
  · cases e with
    | storageError msg =>
      have hg : save_stolen_credentials_to_repository save event st =
          (Except.ok st, [event.stolen_credentials]) := by
        simp only [save_stolen_credentials_to_repository, hs]
      rw [hg]
      refine ⟨rfl, fun msg2 _ => rfl, ?_⟩
      intro msg2 hc
      cases hc
    | otherError msg =>
      have hg : save_stolen_credentials_to_repository save event st =
          (Except.error (CredentialsRepositoryError.otherError msg),
            [event.stolen_credentials]) := by
        simp only [save_stolen_credentials_to_repository, hs]
      rw [hg]
      refine ⟨rfl, ?_, ?_⟩
      · intro msg2 hc
        injection hc with hc'
        cases hc'
      · intro msg2 hc
        injection hc with hc'
        cases hc'
  · have hg : save_stolen_credentials_to_repository save event st =
        (Except.ok st2, [event.stolen_credentials]) := by
      simp only [save_stolen_credentials_to_repository, hs]
    rw [hg]
    refine ⟨rfl, ?_, ?_⟩
    · intro msg2 hc
      cases hc
    · intro msg2 hc
      cases hc

/-!
Witnesses: each hypothesis-carrying claim theorem applied at a concrete store
and registration.
-/

/-- Witness for the conflict-rejection theorem at a concrete input. -/
theorem conflict_rejects_registration_witness :
    (handle_agent_registration ⟨[⟨1, some 7, [⟨60, 24⟩], false⟩], [], [], 10⟩
      ⟨77, some 9, 0, none, ⟨101, 5000⟩, [⟨60, 24⟩]⟩).1 =
      Except.error RegistrationError.hardwareIdentityConflict :=
  (conflict_rejects_registration ⟨[⟨1, some 7, [⟨60, 24⟩], false⟩], [], [], 10⟩
    ⟨77, some 9, 0, none, ⟨101, 5000⟩, [⟨60, 24⟩]⟩
    ⟨1, some 7, [⟨60, 24⟩], false⟩ 7 9 60
    (by decide) (by decide) (by decide) (by decide) (by decide)
    (by decide) (by decide) (by decide)).1

/-- Witness for the idempotence theorem at a concrete input. -/
theorem handle_agent_registration_idempotent_witness :
    (handle_agent_registration
      (handle_agent_registration ⟨[⟨2, some 5, [⟨202, 24⟩], false⟩], [], [], 10⟩
        ⟨77, some 5, 0, none, ⟨101, 5000⟩, [⟨102, 24⟩]⟩).2.1
      ⟨77, some 5, 0, none, ⟨101, 5000⟩, [⟨102, 24⟩]⟩).2.1 =
    (handle_agent_registration ⟨[⟨2, some 5, [⟨202, 24⟩], false⟩], [], [], 10⟩
      ⟨77, some 5, 0, none, ⟨101, 5000⟩, [⟨102, 24⟩]⟩).2.1 :=
  handle_agent_registration_idempotent
    ⟨[⟨2, some 5, [⟨202, 24⟩], false⟩], [], [], 10⟩
    ⟨77, some 5, 0, none, ⟨101, 5000⟩, [⟨102, 24⟩]⟩
    ⟨by decide, by decide, by decide, by decide, by decide, by decide⟩ (by decide)

/-- Witness for the hardware-id-match update theorem at a concrete input. -/
theorem hardware_id_match_updates_machine_witness :
    (handle_agent_registration ⟨[⟨2, some 5, [⟨202, 24⟩], false⟩], [], [], 10⟩
      ⟨77, some 5, 0, none, ⟨101, 5000⟩, [⟨102, 24⟩]⟩).1 = Except.ok () :=
  (hardware_id_match_updates_machine
    ⟨[⟨2, some 5, [⟨202, 24⟩], false⟩], [], [], 10⟩
    ⟨77, some 5, 0, none, ⟨101, 5000⟩, [⟨102, 24⟩]⟩
    ⟨2, some 5, [⟨202, 24⟩], false⟩ 5
    ⟨by decide, by decide, by decide, by decide, by decide, by decide⟩
    (by decide) (by decide) (by decide)).1

/-- Witness for the IP-overlap update theorem at a concrete input. -/
theorem ip_overlap_binds_hardware_id_witness :
    (handle_agent_registration ⟨[⟨1, none, [⟨102, 24⟩], false⟩], [], [], 10⟩
      ⟨77, some 5, 0, none, ⟨101, 5000⟩, [⟨102, 24⟩]⟩).1 = Except.ok () :=
  (ip_overlap_binds_hardware_id ⟨[⟨1, none, [⟨102, 24⟩], false⟩], [], [], 10⟩
    ⟨77, some 5, 0, none, ⟨101, 5000⟩, [⟨102, 24⟩]⟩
    ⟨1, none, [⟨102, 24⟩], false⟩ 5
    ⟨by decide, by decide, by decide, by decide, by decide, by decide⟩
    (by decide) (by decide) (by decide) (by decide)).1

/-- Witness for the new-machine-creation theorem at a concrete input. -/
theorem new_machine_created_witness :
    (handle_agent_registration ⟨[], [], [], 10⟩
        ⟨77, some 5, 0, none, ⟨101, 5000⟩, [⟨102, 24⟩]⟩).2.1.machines.filter
      (fun x => decide (x.id = 10)) = [⟨10, some 5, [⟨102, 24⟩], false⟩] :=
  (new_machine_created ⟨[], [], [], 10⟩
    ⟨77, some 5, 0, none, ⟨101, 5000⟩, [⟨102, 24⟩]⟩ 5
    ⟨by decide, by decide, by decide, by decide, by decide, by decide⟩
    (by decide) (by decide) (by decide) (by decide)).2.1

/-- Witness for the unknown-controller theorem at a concrete input. -/
theorem unknown_controller_creates_machine_witness :
    (handle_agent_registration ⟨[], [], [], 10⟩
      ⟨77, some 5, 0, none, ⟨101, 5000⟩, [⟨102, 24⟩]⟩).1 = Except.ok () :=
  (unknown_controller_creates_machine ⟨[], [], [], 10⟩
    ⟨77, some 5, 0, none, ⟨101, 5000⟩, [⟨102, 24⟩]⟩ 10
    ⟨[⟨10, some 5, [⟨102, 24⟩], false⟩], [], [], 11⟩
    [StoreOp.findByHardwareId 5, StoreOp.findByIp 102, StoreOp.newId 10,
      StoreOp.upsertMachine ⟨10, some 5, [⟨102, 24⟩], false⟩]
    ⟨by decide, by decide, by decide, by decide, by decide, by decide⟩
    (by decide) (by decide) (by decide)).1

/-- Witness for the known-controller theorem at a concrete input. -/
theorem known_controller_records_edge_witness :
    (handle_agent_registration
        ⟨[⟨2, some 5, [⟨202, 24⟩], false⟩, ⟨1, some 99, [⟨101, 24⟩], true⟩],
          [], [], 10⟩
        ⟨77, some 5, 0, none, ⟨101, 5000⟩, [⟨102, 24⟩]⟩).2.1.communications.count
      ⟨2, 1, CommunicationType.cc⟩ = 1 :=
  (known_controller_records_edge
    ⟨[⟨2, some 5, [⟨202, 24⟩], false⟩, ⟨1, some 99, [⟨101, 24⟩], true⟩], [], [], 10⟩
    ⟨77, some 5, 0, none, ⟨101, 5000⟩, [⟨102, 24⟩]⟩ 2
    ⟨[⟨2, some 5, [⟨102, 24⟩, ⟨202, 24⟩], false⟩, ⟨1, some 99, [⟨101, 24⟩], true⟩],
      [], [], 10⟩
    [StoreOp.findByHardwareId 5,
      StoreOp.upsertMachine ⟨2, some 5, [⟨102, 24⟩, ⟨202, 24⟩], false⟩]
    ⟨1, some 99, [⟨101, 24⟩], true⟩
    ⟨by decide, by decide, by decide, by decide, by decide, by decide⟩
    (by decide) (by decide) (by decide)).2.2.2

/-- Witness for the agent-upsert theorem at a concrete input. -/
theorem agent_record_upserted_witness :
    (handle_agent_registration ⟨[], [], [], 10⟩
        ⟨77, some 5, 0, none, ⟨101, 5000⟩, [⟨102, 24⟩]⟩).2.1.agents.filter
      (fun x => decide (x.id = 77)) = [⟨77, 10, 0, none, ⟨101, 5000⟩⟩] :=
  (agent_record_upserted ⟨[], [], [], 10⟩
    ⟨77, some 5, 0, none, ⟨101, 5000⟩, [⟨102, 24⟩]⟩ 10
    ⟨[⟨10, some 5, [⟨102, 24⟩], false⟩], [], [], 11⟩
    [StoreOp.findByHardwareId 5, StoreOp.findByIp 102, StoreOp.newId 10,
      StoreOp.upsertMachine ⟨10, some 5, [⟨102, 24⟩], false⟩]
    ⟨by decide, by decide, by decide, by decide, by decide, by decide⟩
    (by decide)).2

/-- Witness for the plugin-retrieval theorem at a concrete repository. -/
theorem get_plugin_spec_witness :
    FileAgentPluginRepository.get_plugin
      ⟨fun _ => Except.ok ⟨0, 0, [], [OperatingSystem.linux]⟩⟩
      OperatingSystem.linux AgentPluginType.payload "hello" =
      Except.ok ⟨0, 0, [], [OperatingSystem.linux]⟩ :=
  ((get_plugin_spec ⟨fun _ => Except.ok ⟨0, 0, [], [OperatingSystem.linux]⟩⟩
      OperatingSystem.linux AgentPluginType.payload "hello").1
    ⟨0, 0, [], [OperatingSystem.linux]⟩).mpr ⟨rfl, by decide⟩

/-- Witness for the stolen-credentials handler theorem at a concrete
repository behaviour. -/
theorem save_stolen_credentials_spec_witness :
    (save_stolen_credentials_to_repository
      (fun _ _ => Except.error (CredentialsRepositoryError.storageError "boom"))
      ⟨1, 2, [⟨some 3, some 4⟩]⟩ (5 : Nat)).1 = Except.ok 5 :=
  (save_stolen_credentials_spec
    (fun _ _ => Except.error (CredentialsRepositoryError.storageError "boom"))
    ⟨1, 2, [⟨some 3, some 4⟩]⟩ 5).2.1 "boom" rfl

end Monkey
